import Mathlib

/-!
Token manager: signers, claims issuance and verification, key rotation.

A shallow embedding of the token packages of the repository
(`src/token/types.go`, `src/token/hmac_signer.go`, `src/token/rsa_signer.go`,
`src/auth/token_manager.go`).

External libraries are not re-implemented.  The cryptographic primitives, the
PEM and X.509 decoders and the thumbprint encoders are fields of `Lib`, a
parameter of every definition that reaches them.  The control flow of
`jwt.ParseWithClaims` and of the default claims validator of
`github.com/golang-jwt/jwt/v5` (no parser options are passed anywhere in the
source) is written out in the namespace `jwt`.

Modelling conventions.
* `time.Time` is an integer count of nanoseconds since the Unix epoch and
  `time.Duration` an integer count of nanoseconds.
* Every `time.Now()` call of the source is an explicit argument.
* The strings that travel inside a token (`cip`, `did`, issuer, subject,
  audience, token id) are values of `GoString`: the code points and the stray
  bytes that a `for range` loop over the Go string yields.  The JSON encoding
  of the token library replaces every stray byte by U+FFFD.  Other strings
  (algorithm names, key material, map keys) never pass through JSON and are
  plain text.  `uid` is a natural number.
* A compact token string is the value `TokenString`: either text that does not
  decode, or the decoded triple of header algorithm, payload and signature.
  The signing input (first two segments) is the pair of algorithm and payload.
* A Go map is a list of key and value pairs with pairwise distinct keys; a
  `for range` loop visits the entries in list order.
* `sync.RWMutex` is a boolean (locked or not) and calls run one at a time.
-/

namespace Pkgs

/-! ## Int -/

/-- One second in nanoseconds, `time.Second`.  Instants (`time.Time`) and
elapsed times (`time.Duration`) are integers counting nanoseconds. -/
def Second : Int := 1000000000

/-- Rounding down to a whole second, `t.Truncate(time.Second)`. -/
def truncateSecond (t : Int) : Int := t - t % Second

/-- Two-complement wrap-around of a Go `int64` product. -/
def wrapInt64 (x : Int) : Int := (x + 2 ^ 63) % 2 ^ 64 - 2 ^ 63

/-! ## types.go -/

/-- Sentinel errors of the token library that `errors.Is` can find in an error. -/
inductive LibSentinel where
  | ErrTokenMalformed
  | ErrTokenUnverifiable
  | ErrTokenSignatureInvalid
  | ErrTokenInvalidClaims
  | ErrTokenExpired
  | ErrTokenNotValidYet
  | ErrInvalidKeyType
  | ErrSignatureInvalid
  | ErrVerification
  | ErrSigning
  | NoneSignatureTypeDisallowed
  | unexpectedSigningMethod
  deriving DecidableEq, Repr

/-- Package-level error values and the ways the source builds errors from them. -/
inductive Err where
  | ErrInvalidToken
  | ErrTokenExpired
  | ErrInvalidIssuer
  | ErrUnsupportedAlgo
  /-- Models `errors.New(text)` -/
  | new (text : String)
  /-- Models `fmt.Errorf` with one `%w` operand: the wrapped error and the other text -/
  | wrap (inner : Err) (text : String)
  /-- an error value of the token library, passed on unchanged -/
  | library (sentinels : List LibSentinel)
  deriving DecidableEq, Repr

/-- Models `errors.Is(e, target)` for package-level targets. -/
def Err.Is : Err → Err → Bool
  | .wrap inner text, target =>
      if Err.wrap inner text = target then true else Err.Is inner target
  | e, target => decide (e = target)

def RsaKeyType : String := "RS256"

def HMACKeyType : String := "HS256"

/-- One step of a `for range` loop over a Go string: a code point whose UTF-8
encoding stands in the string, or a byte that belongs to no valid encoding. -/
inductive GoUnit where
  | rune (c : Char)
  | bad (byte : Nat)
  deriving DecidableEq, Repr

/-- A Go string, as the sequence of its code points and stray bytes.  Every Go
string is one such sequence (the one a `for range` loop reads off it); a
string is valid UTF-8 when the sequence holds no stray byte. -/
structure GoString where
  units : List GoUnit
  deriving DecidableEq, Repr

/-- The Go string that holds the UTF-8 encoding of a text. -/
def goStr (s : String) : GoString := { units := s.data.map GoUnit.rune }

/-- Whether a unit is a code point (not a stray byte). -/
def GoUnit.isRune : GoUnit → Bool
  | .rune _ => true
  | .bad _ => false

/-- Models `utf8.ValidString`: the string holds no stray byte. -/
def GoString.Valid (s : GoString) : Bool := s.units.all GoUnit.isRune

/-- What `encoding/json` writes for one unit: a code point stays, a stray
byte becomes the replacement character U+FFFD. -/
def jsonUnit : GoUnit → GoUnit
  | .rune c => .rune c
  | .bad _ => .rune (Char.ofNat 0xFFFD)

/-- What a string is after `json.Marshal` and `json.Unmarshal`: invalid UTF-8
is coerced to U+FFFD, on the way out and on the way in. -/
def jsonString (s : GoString) : GoString := { units := s.units.map jsonUnit }

/-- The configuration record `TokenConfig`. -/
structure TokenConfig where
  Algorithm : String
  SecretKey : String
  PublicKey : String
  PrivateKey : String
  Expiration : Int
  Issuer : GoString
  KeyRotation : Int
  Audience : List GoString
  KeyRotationGracePeriod : Int
  MaxRetiredKeys : Int
  deriving DecidableEq, Repr

/-- The registered claims `jwt.RegisteredClaims`; a nil `*NumericDate` is `none`. -/
structure RegisteredClaims where
  Issuer : GoString
  Subject : GoString
  Audience : List GoString
  ExpiresAt : Option Int
  NotBefore : Option Int
  IssuedAt : Option Int
  ID : GoString
  deriving DecidableEq, Repr

/-- The claims record `EnterpriseClaims` (`uid`, `cip`, `did` and the registered claims). -/
structure EnterpriseClaims where
  UserID : Nat
  ClientIP : GoString
  DeviceID : GoString
  Registered : RegisteredClaims
  deriving DecidableEq, Repr

/-! ## Keys -/

/-- Public part of an RSA key, `rsa.PublicKey`. -/
structure RSAPublicKey where
  N : Nat
  E : Int
  deriving DecidableEq, Repr

/-- An RSA private key, `rsa.PrivateKey`, with its embedded public key. -/
structure RSAPrivateKey where
  PublicKey : RSAPublicKey
  D : Nat
  deriving DecidableEq, Repr

/-- A value of the interface `crypto.PrivateKey`. -/
inductive CryptoPrivateKey where
  | rsa (k : RSAPrivateKey)
  | other (kind : String)
  deriving DecidableEq, Repr

/-- A value of the interface `crypto.PublicKey`. -/
inductive CryptoPublicKey where
  | rsa (k : RSAPublicKey)
  | other (kind : String)
  deriving DecidableEq, Repr

/-! ## The token library -/

abbrev Signature := List Nat

abbrev Bytes := List Nat

inductive HashAlg where
  | SHA256 | SHA384 | SHA512
  deriving DecidableEq, Repr

/-- The first two segments of a compact token: what a signature covers. -/
structure SigningInput where
  alg : String
  payload : EnterpriseClaims
  deriving DecidableEq, Repr

/-- A compact token string as handed to `Verify`. -/
inductive TokenString where
  /-- text that is not three decodable segments -/
  | malformed (raw : String)
  /-- three segments that decode: header algorithm, claims payload, signature -/
  | compact (alg : String) (payload : EnterpriseClaims) (sig : Signature)
  deriving DecidableEq, Repr

/-- External primitives: signatures, key decoding and the thumbprint encoders. -/
structure Lib where
  hmac : HashAlg → String → SigningInput → Signature
  SignPKCS1v15 : HashAlg → RSAPrivateKey → SigningInput → Option Signature
  VerifyPKCS1v15 : HashAlg → RSAPublicKey → SigningInput → Signature → Bool
  VerifyPSS : HashAlg → RSAPublicKey → SigningInput → Signature → Bool
  pemDecode : String → Option Bytes
  ParsePKCS1PrivateKey : Bytes → Option RSAPrivateKey
  ParsePKCS8PrivateKey : Bytes → Option CryptoPrivateKey
  ParsePKIXPublicKey : Bytes → Option CryptoPublicKey
  jwkJSON : RSAPublicKey → Bytes
  sha256 : Bytes → Bytes
  base64RawURL : Bytes → String

namespace jwt

abbrev Sentinel := LibSentinel

/-- A library error: the sentinels it wraps, outermost first. -/
abbrev Error := List Sentinel

/-- Models `errors.Is(err, target)` on a library error. -/
def Is (err : Error) (target : Sentinel) : Bool := decide (target ∈ err)

def sentinelText : Sentinel → String
  | .ErrTokenMalformed => "token is malformed"
  | .ErrTokenUnverifiable => "token is unverifiable"
  | .ErrTokenSignatureInvalid => "token signature is invalid"
  | .ErrTokenInvalidClaims => "token has invalid claims"
  | .ErrTokenExpired => "token is expired"
  | .ErrTokenNotValidYet => "token is not valid yet"
  | .ErrInvalidKeyType => "key is of invalid type"
  | .ErrSignatureInvalid => "signature is invalid"
  | .ErrVerification => "crypto/rsa: verification error"
  | .ErrSigning => "crypto/rsa: signing error"
  | .NoneSignatureTypeDisallowed => "none signature type is not allowed"
  | .unexpectedSigningMethod => "unexpected signing method"

/-- The method `Error()` of a library error. -/
def Error.text (err : Error) : String := ": ".intercalate (err.map sentinelText)

/-- The registered signing methods. -/
inductive SigningMethod where
  | HMAC (h : HashAlg)
  | RSA (h : HashAlg)
  | RSAPSS (h : HashAlg)
  | ECDSA (h : HashAlg)
  | Ed25519
  | None
  deriving DecidableEq, Repr

def SigningMethod.Alg : SigningMethod → String
  | .HMAC .SHA256 => "HS256"
  | .HMAC .SHA384 => "HS384"
  | .HMAC .SHA512 => "HS512"
  | .RSA .SHA256 => "RS256"
  | .RSA .SHA384 => "RS384"
  | .RSA .SHA512 => "RS512"
  | .RSAPSS .SHA256 => "PS256"
  | .RSAPSS .SHA384 => "PS384"
  | .RSAPSS .SHA512 => "PS512"
  | .ECDSA .SHA256 => "ES256"
  | .ECDSA .SHA384 => "ES384"
  | .ECDSA .SHA512 => "ES512"
  | .Ed25519 => "EdDSA"
  | .None => "none"

def GetSigningMethod (alg : String) : Option SigningMethod :=
  if alg = "HS256" then some (.HMAC .SHA256)
  else if alg = "HS384" then some (.HMAC .SHA384)
  else if alg = "HS512" then some (.HMAC .SHA512)
  else if alg = "RS256" then some (.RSA .SHA256)
  else if alg = "RS384" then some (.RSA .SHA384)
  else if alg = "RS512" then some (.RSA .SHA512)
  else if alg = "PS256" then some (.RSAPSS .SHA256)
  else if alg = "PS384" then some (.RSAPSS .SHA384)
  else if alg = "PS512" then some (.RSAPSS .SHA512)
  else if alg = "ES256" then some (.ECDSA .SHA256)
  else if alg = "ES384" then some (.ECDSA .SHA384)
  else if alg = "ES512" then some (.ECDSA .SHA512)
  else if alg = "EdDSA" then some .Ed25519
  else if alg = "none" then some .None
  else none

/-- A key as handed to a signing method (`interface{}` in the library). -/
inductive Key where
  | bytes (secret : String)
  | rsaPublic (k : RSAPublicKey)
  | rsaPrivate (k : RSAPrivateKey)
  deriving DecidableEq, Repr

/-- Models `NewNumericDate`: the instant truncated to the time precision (one second). -/
def NewNumericDate (t : Int) : Int := truncateSecond t

/-- What the JSON encoding keeps of the claims.  Numeric dates are in whole
seconds (both `NumericDate.MarshalJSON` and `NumericDate.UnmarshalJSON`
truncate), and in every string the bytes that are not valid UTF-8 are replaced
by U+FFFD (`encoding/json`, when it writes and when it reads a string). -/
def wireClaims (c : EnterpriseClaims) : EnterpriseClaims :=
  { UserID := c.UserID
    ClientIP := jsonString c.ClientIP
    DeviceID := jsonString c.DeviceID
    Registered :=
      { Issuer := jsonString c.Registered.Issuer
        Subject := jsonString c.Registered.Subject
        Audience := c.Registered.Audience.map jsonString
        ExpiresAt := c.Registered.ExpiresAt.map NewNumericDate
        NotBefore := c.Registered.NotBefore.map NewNumericDate
        IssuedAt := c.Registered.IssuedAt.map NewNumericDate
        ID := jsonString c.Registered.ID } }

/-- A parsed token, `jwt.Token`. -/
structure Token where
  Method : SigningMethod
  Claims : EnterpriseClaims
  Signature : Signature
  Valid : Bool
  deriving DecidableEq, Repr

/-- Models `SigningMethod.Sign(signingString, key)`. -/
def SigningMethod.Sign (lib : Lib) (m : SigningMethod) (input : SigningInput) (key : Key) :
    Except Error Signature :=
  match m, key with
  | .HMAC h, .bytes secret => .ok (lib.hmac h secret input)
  | .RSA h, .rsaPrivate k =>
      match lib.SignPKCS1v15 h k input with
      | some sig => .ok sig
      | none => .error [.ErrSigning]
  | .None, _ => .error [.NoneSignatureTypeDisallowed]
  | _, _ => .error [.ErrInvalidKeyType]

/-- Models `SigningMethod.Verify(signingString, sig, key)`. -/
def SigningMethod.Verify (lib : Lib) (m : SigningMethod) (input : SigningInput)
    (sig : Signature) (key : Key) : Except Error Unit :=
  match m, key with
  | .HMAC h, .bytes secret =>
      if sig = lib.hmac h secret input then .ok () else .error [.ErrSignatureInvalid]
  | .RSA h, .rsaPublic k =>
      if lib.VerifyPKCS1v15 h k input sig then .ok () else .error [.ErrVerification]
  | .RSAPSS h, .rsaPublic k =>
      if lib.VerifyPSS h k input sig then .ok () else .error [.ErrVerification]
  | .None, _ => .error [.NoneSignatureTypeDisallowed]
  | _, _ => .error [.ErrInvalidKeyType]

/-- Models `NewWithClaims(method, claims).SignedString(key)`. -/
def SignedString (lib : Lib) (m : SigningMethod) (claims : EnterpriseClaims) (key : Key) :
    Except Error TokenString :=
  let input : SigningInput := { alg := m.Alg, payload := wireClaims claims }
  match m.Sign lib input key with
  | .ok sig => .ok (.compact m.Alg (wireClaims claims) sig)
  | .error e => .error e

/-- Models `Validator.verifyExpiresAt` with no leeway and the claim not required. -/
def verifyExpiresAt (claims : EnterpriseClaims) (now : Int) : Option Sentinel :=
  match claims.Registered.ExpiresAt with
  | none => none
  | some exp => if now < exp then none else some .ErrTokenExpired

/-- Models `Validator.verifyNotBefore` with no leeway and the claim not required. -/
def verifyNotBefore (claims : EnterpriseClaims) (now : Int) : Option Sentinel :=
  match claims.Registered.NotBefore with
  | none => none
  | some nbf => if now < nbf then some .ErrTokenNotValidYet else none

/-- Models `Validator.Validate` of the default validator: expiry and not-before are
checked; issued-at, audience, issuer and subject are checked only when the
corresponding parser option is given, and the source gives none. -/
def Validate (claims : EnterpriseClaims) (now : Int) : Option Error :=
  let errs := (verifyExpiresAt claims now).toList ++ (verifyNotBefore claims now).toList
  if errs.isEmpty then none else some errs

/-- Models `ParseWithClaims(tokenString, &EnterpriseClaims{}, keyFunc)` at time `now`. -/
def ParseWithClaims (lib : Lib) (now : Int) (tokenString : TokenString)
    (keyFunc : Token → Except Error Key) : Except Error Token :=
  match tokenString with
  | .malformed _ => .error [.ErrTokenMalformed]
  | .compact alg payload sig =>
      match GetSigningMethod alg with
      | none => .error [.ErrTokenUnverifiable]
      | some m =>
          let token : Token :=
            { Method := m, Claims := wireClaims payload, Signature := sig, Valid := false }
          match keyFunc token with
          | .error e => .error (.ErrTokenUnverifiable :: e)
          | .ok key =>
              match m.Verify lib { alg := alg, payload := payload } sig key with
              | .error e => .error (.ErrTokenSignatureInvalid :: e)
              | .ok _ =>
                  match Validate token.Claims now with
                  | some e => .error (.ErrTokenInvalidClaims :: e)
                  | none => .ok { token with Valid := true }

end jwt

/-- A library error passed on to the caller unchanged. -/
def Err.ofJwt (e : jwt.Error) : Err := .library e

/-! ## hmac_signer.go -/

structure HMACSigner where
  cfg : TokenConfig
  secret : String
  deriving DecidableEq, Repr

def NewHMACSigner (cfg : TokenConfig) : HMACSigner :=
  { cfg := cfg, secret := cfg.SecretKey }

def HMACSigner.Sign (lib : Lib) (h : HMACSigner) (claims : EnterpriseClaims) :
    Except Err TokenString :=
  match jwt.SignedString lib (.HMAC .SHA256) claims (.bytes h.secret) with
  | .ok s => .ok s
  | .error e => .error (Err.ofJwt e)

def HMACSigner.Verify (lib : Lib) (h : HMACSigner) (now : Int) (tokenString : TokenString) :
    Except Err EnterpriseClaims :=
  match jwt.ParseWithClaims lib now tokenString (fun _ => .ok (.bytes h.secret)) with
  | .error err => .error (Err.ofJwt err)
  | .ok token => .ok token.Claims

def HMACSigner.Algorithm (h : HMACSigner) : String := h.cfg.Algorithm

def HMACSigner.KeyID (_h : HMACSigner) : String := ""

/-! ## rsa_signer.go -/

structure RSASigner where
  cfg : Option TokenConfig
  privateKey : RSAPrivateKey
  publicKey : RSAPublicKey
  keyID : String
  deriving DecidableEq, Repr

/-- Models `generateKeyID`: the first 16 bytes of the SHA-256 digest of the JSON of
`kty`, `n`, `e`, in unpadded URL-safe base64. -/
def generateKeyID (lib : Lib) (pubKey : RSAPublicKey) : String :=
  let data := lib.jwkJSON pubKey
  let hash := lib.sha256 data
  lib.base64RawURL (hash.take 16)

/-- The private-key half of `parseRSAKeys`: PKCS#1 first, then PKCS#8, which
must hold an RSA key. -/
def parsePrivateKeyBlock (lib : Lib) (privateKeyBlock : Bytes) : Except Err RSAPrivateKey :=
  match lib.ParsePKCS1PrivateKey privateKeyBlock with
  | some privateKey => .ok privateKey
  | none =>
      match lib.ParsePKCS8PrivateKey privateKeyBlock with
      | none => .error (.wrap (.new "x509") "PKCS#1和PKCS#8解析均失败")
      | some (.rsa privateKey) => .ok privateKey
      | some (.other _) => .error (.new "PKCS#8密钥不是RSA类型")

/-- Models `parseRSAKeys`; the argument is a pointer, `none` is nil. -/
def parseRSAKeys (lib : Lib) (cfg : Option TokenConfig) :
    Except Err (RSAPrivateKey × RSAPublicKey) :=
  match cfg with
  | none => .error (.new "配置对象不能为空")
  | some cfg =>
    match lib.pemDecode cfg.PrivateKey with
    | none => .error (.new "无效的PEM私钥格式")
    | some privateKeyBlock =>
      match parsePrivateKeyBlock lib privateKeyBlock with
      | .error e => .error e
      | .ok privateKey =>
        match lib.pemDecode cfg.PublicKey with
        | none => .error (.new "无效的PEM公钥格式")
        | some publicKeyBlock =>
          match lib.ParsePKIXPublicKey publicKeyBlock with
          | none => .error (.wrap (.new "x509") "公钥解析失败")
          | some (.other _) => .error (.new "公钥不是RSA类型")
          | some (.rsa rsaPublicKey) =>
            if privateKey.PublicKey.N ≠ rsaPublicKey.N ∨
                privateKey.PublicKey.E ≠ rsaPublicKey.E then
              .error (.new "公私钥不匹配")
            else .ok (privateKey, rsaPublicKey)

def NewRSASigner (lib : Lib) (cfg : Option TokenConfig) : Except Err RSASigner :=
  match parseRSAKeys lib cfg with
  | .error err => .error (.wrap err "RSA密钥解析失败")
  | .ok (privateKey, publicKey) =>
      .ok { cfg := cfg, privateKey := privateKey, publicKey := publicKey,
            keyID := generateKeyID lib publicKey }

def RSASigner.Sign (lib : Lib) (s : RSASigner) (claims : EnterpriseClaims) :
    Except Err TokenString :=
  match jwt.SignedString lib (.RSA .SHA256) claims (.rsaPrivate s.privateKey) with
  | .ok t => .ok t
  | .error e => .error (Err.ofJwt e)

/-- The key function of `RSASigner.Verify`: only `*jwt.SigningMethodRSA` passes. -/
def RSASigner.keyFunc (s : RSASigner) (token : jwt.Token) : Except jwt.Error jwt.Key :=
  match token.Method with
  | .RSA _ => .ok (.rsaPublic s.publicKey)
  | _ => .error [.unexpectedSigningMethod]

def RSASigner.Verify (lib : Lib) (s : RSASigner) (now : Int) (tokenString : TokenString) :
    Except Err EnterpriseClaims :=
  match jwt.ParseWithClaims lib now tokenString s.keyFunc with
  | .error err =>
      if jwt.Is err .ErrTokenMalformed then .error (.wrap .ErrInvalidToken "token格式错误")
      else if jwt.Is err .ErrTokenExpired then .error .ErrTokenExpired
      else if jwt.Is err .ErrTokenNotValidYet then
        .error (.wrap .ErrInvalidToken "token尚未生效")
      else .error (.wrap .ErrInvalidToken (jwt.Error.text err))
  | .ok token =>
      if token.Valid then .ok token.Claims else .error .ErrInvalidToken

def RSASigner.Algorithm (s : RSASigner) : String :=
  match s.cfg with
  | some cfg => cfg.Algorithm
  | none => ""

def RSASigner.KeyID (s : RSASigner) : String := s.keyID

/-! ## The interface `Signer` -/

/-- A non-nil value of the interface `Signer`: one of the two implementations. -/
inductive Signer where
  | hmac (h : HMACSigner)
  | rsa (s : RSASigner)
  deriving DecidableEq, Repr

def Signer.Sign (lib : Lib) : Signer → EnterpriseClaims → Except Err TokenString
  | .hmac h, claims => h.Sign lib claims
  | .rsa s, claims => s.Sign lib claims

def Signer.Verify (lib : Lib) : Signer → Int → TokenString → Except Err EnterpriseClaims
  | .hmac h, now, t => h.Verify lib now t
  | .rsa s, now, t => s.Verify lib now t

/-! ## token_manager.go -/

/-- The map type of `oldKeys`, `map[string]crypto.PublicKey`. -/
abbrev KeyMap := List (String × CryptoPublicKey)

/-- The builtin `len(m)`. -/
def KeyMap.len (m : KeyMap) : Nat := m.length

/-- The keys visited by `for k := range m`. -/
def KeyMap.keys (m : KeyMap) : List String := m.map Prod.fst

/-- Reading `m[k]`. -/
def KeyMap.get (m : KeyMap) (k : String) : Option CryptoPublicKey :=
  match m with
  | [] => none
  | (k0, v) :: rest => if k0 = k then some v else KeyMap.get rest k

/-- The builtin `delete(m, k)`. -/
def KeyMap.delete : KeyMap → String → KeyMap
  | [], _ => []
  | (k0, v0) :: rest, k =>
      if k0 = k then KeyMap.delete rest k else (k0, v0) :: KeyMap.delete rest k

/-- The assignment `m[k] = v`. -/
def KeyMap.set : KeyMap → String → CryptoPublicKey → KeyMap
  | [], k, v => [(k, v)]
  | (k0, v0) :: rest, k, v =>
      if k0 = k then (k, v) :: rest else (k0, v0) :: KeyMap.set rest k v

structure TokenManager where
  cfg : TokenConfig
  signer : Option Signer
  RsaSigner : Option RSASigner
  HMACSigner : Option HMACSigner
  currentKey : Option CryptoPrivateKey
  oldKeys : KeyMap
  /-- whether `mu` is write-locked -/
  mu : Bool
  keyExpiry : Int
  keyUsageMap : List (String × Nat)
  deriving DecidableEq, Repr

/-- One rune of `strings.ToUpper`.  Exact on every rune whose upper case is an
ASCII character; other runes are left as they are, which cannot change a
comparison with an ASCII constant. -/
def toUpperRune (c : Char) : Char :=
  if c = Char.ofNat 0x17F then 'S'
  else if c = Char.ofNat 0x131 then 'I'
  else c.toUpper

def ToUpper (s : String) : String := String.mk (s.data.map toUpperRune)

/-- The builtin `len(s)` of a string: its length in bytes. -/
def strLen (s : String) : Nat := s.utf8ByteSize

def initSigner (lib : Lib) (tm : TokenManager) : Except Err TokenManager :=
  let alg := ToUpper tm.cfg.Algorithm
  if alg = HMACKeyType then
    if strLen tm.cfg.SecretKey < 32 then .error (.new "HMAC密钥长度至少32字节")
    else
      let hmacSigner := NewHMACSigner tm.cfg
      .ok { tm with signer := some (.hmac hmacSigner) }
  else if alg = RsaKeyType then
    match NewRSASigner lib (some tm.cfg) with
    | .error err => .error err
    | .ok rsaSigner => .ok { tm with signer := some (.rsa rsaSigner) }
  else .error .ErrUnsupportedAlgo

/-- How a call ends: it returns (with a nil or non-nil error), it panics, the
runtime aborts the process with a fatal error, or it waits forever. -/
inductive Outcome where
  | returned (err : Option Err) (tm : TokenManager)
  | panicked (msg : String) (tm : TokenManager)
  | fatal (msg : String) (tm : TokenManager)
  | blocked (tm : TokenManager)
  deriving DecidableEq, Repr

/-- Models `RWMutex.Unlock`: the new lock state, or `none` when the mutex is not
locked (the runtime then stops the process: unlock of unlocked RWMutex). -/
def Unlock (locked : Bool) : Option Bool := if locked then some false else none

/-- The running of `defer tm.mu.Unlock()` when `rotateKey` leaves. -/
def deferredUnlock (leave : TokenManager → Outcome) (tm : TokenManager) : Outcome :=
  match Unlock tm.mu with
  | some m => leave { tm with mu := m }
  | none => .fatal "sync: Unlock of unlocked RWMutex" tm

/-- Models `fmt.Sprintf("%x", pubKey.N)[:16]`; `none` is the slice-bounds panic. -/
def archiveKeyID (pubKey : RSAPublicKey) : Option String :=
  let hex := Nat.toDigits 16 pubKey.N
  if hex.length < 16 then none else some (String.mk (hex.take 16))

/-- Lexicographic comparison of two character sequences. -/
def ltChars : List Char → List Char → Bool
  | [], [] => false
  | [], _ :: _ => true
  | _ :: _, [] => false
  | a :: as, b :: bs => if a < b then true else if b < a then false else ltChars as bs

/-- The comparison `a < b` of two Go strings: lexicographic on the bytes, which
for UTF-8 text is lexicographic on the code points. -/
def strLess (a b : String) : Bool := ltChars a.data b.data

/-- The loop `for k := range tm.oldKeys` of `rotateKey`, from `oldestKey`. -/
def oldestKeyLoop : List String → String → String
  | [], oldestKey => oldestKey
  | k :: ks, oldestKey =>
      oldestKeyLoop ks (if oldestKey = "" ∨ strLess k oldestKey = true then k else oldestKey)

/-- The eviction block of `rotateKey`. -/
def evictOldest (cfg : TokenConfig) (oldKeys : KeyMap) : KeyMap :=
  if (oldKeys.len : Int) ≥ cfg.MaxRetiredKeys then
    oldKeys.delete (oldestKeyLoop oldKeys.keys "")
  else oldKeys

/-- The archival block of `rotateKey`; `none` is the slice-bounds panic.  The
expiry `time.Now().Add(tm.cfg.KeyRotation*2)` of the archived key goes to the
log only and is stored nowhere, so it does not appear here. -/
def archiveCurrent (tm : TokenManager) : Option KeyMap :=
  match tm.currentKey with
  | some (.rsa rsaKey) =>
      match archiveKeyID rsaKey.PublicKey with
      | some keyID => some (tm.oldKeys.set keyID (.rsa rsaKey.PublicKey))
      | none => none
  | _ => some tm.oldKeys

/-- Models `rotateKey`.  `generated` is the result of `rsa.GenerateKey(rand.Reader, 2048)`
and `now` the clock reading used for the new key expiry. -/
def rotateKey (tm : TokenManager) (generated : Except Err RSAPrivateKey) (now : Int) :
    Outcome :=
  if tm.mu then .blocked tm
  else
    let tm := { tm with mu := true }
    match archiveCurrent tm with
    | none => deferredUnlock (.panicked "slice bounds out of range") tm
    | some archived =>
      let tm := { tm with oldKeys := evictOldest tm.cfg archived }
      match generated with
      | .error err =>
          match Unlock tm.mu with
          | none => .fatal "sync: Unlock of unlocked RWMutex" tm
          | some m => deferredUnlock (.returned (some err)) { tm with mu := m }
      | .ok newPrivateKey =>
          deferredUnlock (.returned none)
            { tm with
              currentKey := some (.rsa newPrivateKey)
              keyExpiry := now + wrapInt64 (tm.cfg.KeyRotation * 3) }

/-- What the daemon receives from its `select`: a timer tick or cancellation. -/
inductive Event where
  | tick
  | done
  deriving DecidableEq, Repr

/-- Models `keyRotationDaemon`, run on the events in their order of arrival.  Both
arms of the `select` return, so the body of the `for` runs once.  The second
component lists the outcome of every `rotateKey` call made. -/
def keyRotationDaemon (tm : TokenManager) (generated : Nat → Except Err RSAPrivateKey)
    (now : Int) : List Event → Outcome × List Outcome
  | [] => (.blocked tm, [])
  | .tick :: _ =>
      let r := rotateKey tm (generated 0) now
      (r, [r])
  | .done :: _ => (.returned none tm, [])

/-- Models `NewTokenManager`, without the start of the background goroutine. -/
def NewTokenManager (lib : Lib) (cfg : TokenConfig) : Except Err TokenManager :=
  let tm : TokenManager :=
    { cfg := cfg, signer := none, RsaSigner := none, HMACSigner := none,
      currentKey := none, oldKeys := [], mu := false, keyExpiry := 0, keyUsageMap := [] }
  match initSigner lib tm with
  | .error err => .error (.wrap err "签名器初始化失败")
  | .ok tm => .ok tm

/-- Whether `NewTokenManager` starts `keyRotationDaemon` in a goroutine. -/
def startsDaemon (cfg : TokenConfig) : Bool := decide (cfg.KeyRotation > 0)

/-- The registered claims that `Generate` stamps; `now1`, `now2`, `now3` are its
three clock readings, in source order. -/
def stampClaims (cfg : TokenConfig) (claims : EnterpriseClaims) (now1 now2 now3 : Int) :
    EnterpriseClaims :=
  { claims with
    Registered :=
      { Issuer := cfg.Issuer
        Subject := goStr ""
        Audience := cfg.Audience
        ExpiresAt := some (jwt.NewNumericDate (now1 + cfg.Expiration))
        IssuedAt := some (jwt.NewNumericDate now2)
        NotBefore := some (jwt.NewNumericDate now3)
        ID := goStr "" } }

def TokenManager.Generate (lib : Lib) (tm : TokenManager) (claims : EnterpriseClaims)
    (now1 now2 now3 : Int) : Except Err TokenString :=
  match tm.signer with
  | none => .error (.new "签名器未初始化，请检查算法配置")
  | some signer => signer.Sign lib (stampClaims tm.cfg claims now1 now2 now3)

/-- Models `TokenManager.Verify`; `none` is the nil-interface panic of a manager
without signer. -/
def TokenManager.Verify (lib : Lib) (tm : TokenManager) (now : Int)
    (tokenString : TokenString) : Option (Except Err EnterpriseClaims) :=
  match tm.signer with
  | none => none
  | some signer => some (signer.Verify lib now tokenString)

/-! ## A concrete library instance -/

/-- A small instance of `Lib` on which the definitions can be evaluated.  Its
signatures are consistent (what is signed verifies) and nothing more. -/
def sampleLib : Lib where
  hmac := fun h secret input =>
    [secret.length, input.alg.length, input.payload.UserID,
      match h with
      | .SHA256 => 256
      | .SHA384 => 384
      | .SHA512 => 512]
  SignPKCS1v15 := fun _ k input => some [k.PublicKey.N, k.D, input.payload.UserID]
  VerifyPKCS1v15 := fun _ pk input sig =>
    match sig with
    | [n, _, u] => decide (n = pk.N ∧ u = input.payload.UserID)
    | _ => false
  VerifyPSS := fun _ _ _ _ => false
  pemDecode := fun s => if s = "" then none else some (s.data.map Char.toNat)
  ParsePKCS1PrivateKey := fun b =>
    match b with
    | [n, e, d] => some { PublicKey := { N := n, E := e }, D := d }
    | _ => none
  ParsePKCS8PrivateKey := fun _ => none
  ParsePKIXPublicKey := fun b =>
    match b with
    | [n, e] => some (.rsa { N := n, E := e })
    | _ => none
  jwkJSON := fun pk => [pk.N, pk.E.toNat]
  sha256 := fun b => b
  base64RawURL := fun b => String.mk (b.map Char.ofNat)

/-- A private key signs consistently: what it signs verifies under its own
public key (the correctness of the RSA signature scheme for this key). -/
def RSAConsistent (lib : Lib) (k : RSAPrivateKey) : Prop :=
  ∀ h input sig, lib.SignPKCS1v15 h k input = some sig →
    lib.VerifyPKCS1v15 h k.PublicKey input sig = true

deriving instance DecidableEq for Except

/-! ## Sample inputs -/

def sampleRegistered : RegisteredClaims :=
  { Issuer := goStr "", Subject := goStr "", Audience := [], ExpiresAt := none,
    NotBefore := none, IssuedAt := none, ID := goStr "" }

/-- The claims of the example of the specification: uid 42, cip 10.0.0.5, did dev-1. -/
def sampleClaims : EnterpriseClaims :=
  { UserID := 42, ClientIP := goStr "10.0.0.5", DeviceID := goStr "dev-1",
    Registered := sampleRegistered }

/-- An RS256 configuration whose two PEM texts decode, under `sampleLib`, to
the key pair with modulus 3233, public exponent 17 and private exponent 2753. -/
def sampleRSAConfig : TokenConfig :=
  { Algorithm := "rs256", SecretKey := "",
    PublicKey := String.mk [Char.ofNat 3233, Char.ofNat 17],
    PrivateKey := String.mk [Char.ofNat 3233, Char.ofNat 17, Char.ofNat 2753],
    Expiration := 900 * Second, Issuer := goStr "svc-auth", KeyRotation := 3600 * Second,
    Audience := [goStr "svc-api"], KeyRotationGracePeriod := 0, MaxRetiredKeys := 2 }

def sampleRSASigner : RSASigner :=
  { cfg := some sampleRSAConfig
    privateKey := { PublicKey := { N := 3233, E := 17 }, D := 2753 }
    publicKey := { N := 3233, E := 17 }
    keyID := String.mk [Char.ofNat 3233, Char.ofNat 17] }

def sampleRSAManager : TokenManager :=
  { cfg := sampleRSAConfig, signer := some (.rsa sampleRSASigner), RsaSigner := none,
    HMACSigner := none, currentKey := none, oldKeys := [], mu := false, keyExpiry := 0,
    keyUsageMap := [] }

/-- An HS256 configuration with a secret of exactly 32 bytes. -/
def sampleHMACConfig : TokenConfig :=
  { Algorithm := "HS256", SecretKey := "0123456789abcdef0123456789abcdef",
    PublicKey := "", PrivateKey := "",
    Expiration := 900 * Second, Issuer := goStr "svc-auth", KeyRotation := 0,
    Audience := [goStr "svc-api"], KeyRotationGracePeriod := 0, MaxRetiredKeys := 3 }

def sampleHMACManager : TokenManager :=
  { cfg := sampleHMACConfig, signer := some (.hmac (NewHMACSigner sampleHMACConfig)),
    RsaSigner := none, HMACSigner := none, currentKey := none, oldKeys := [], mu := false,
    keyExpiry := 0, keyUsageMap := [] }

/-- The token that `sampleRSAManager` generates for `sampleClaims` when its
three clock readings fall in the second that starts at 1000 s. -/
def sampleRSAToken : TokenString :=
  .compact "RS256"
    { sampleClaims with
      Registered :=
        { Issuer := goStr "svc-auth", Subject := goStr "", Audience := [goStr "svc-api"],
          ExpiresAt := some 1900000000000, NotBefore := some 1000000000000,
          IssuedAt := some 1000000000000, ID := goStr "" } }
    [3233, 2753, 42]

/-- The manager an outcome leaves behind. -/
def Outcome.state : Outcome → TokenManager
  | .returned _ tm => tm
  | .panicked _ tm => tm
  | .fatal _ tm => tm
  | .blocked tm => tm

/-- The states a manager built from `cfg` can be in: the freshly constructed
one, and the state any `rotateKey` call leaves behind, however that call ends. -/
inductive Reachable (lib : Lib) (cfg : TokenConfig) : TokenManager → Prop where
  | fresh (tm : TokenManager) (h : NewTokenManager lib cfg = .ok tm) : Reachable lib cfg tm
  | rotate (tm : TokenManager) (generated : Except Err RSAPrivateKey) (now : Int)
      (h : Reachable lib cfg tm) : Reachable lib cfg (rotateKey tm generated now).state

/-- The eviction step of a rotation spares `id`: the mapping after archival
holds fewer than `MaxRetiredKeys` entries, or it holds a smaller identifier. -/
def Spared (cfg : TokenConfig) (archived : KeyMap) (id : String) : Prop :=
  (archived.len : Int) < cfg.MaxRetiredKeys ∨ ∃ x ∈ archived.keys, x < id

/-- Three generated keys; their archive identifiers are the 16 hexadecimal
digits of their moduli. -/
def sampleKeyA : RSAPrivateKey := { PublicKey := { N := 0xb000000000000001, E := 65537 }, D := 5 }

def sampleKeyB : RSAPrivateKey := { PublicKey := { N := 0xa000000000000001, E := 65537 }, D := 7 }

def sampleKeyC : RSAPrivateKey := { PublicKey := { N := 0xc000000000000001, E := 65537 }, D := 11 }

/-- The RS256 sample manager after a first rotation, at time 0, generating `sampleKeyA`. -/
def rotatedOnce : TokenManager := (rotateKey sampleRSAManager (.ok sampleKeyA) 0).state

/-- The manager after a second rotation, one second later, generating `sampleKeyB`. -/
def rotatedTwice : TokenManager := (rotateKey rotatedOnce (.ok sampleKeyB) 1000000000).state

/-- The HS256 sample configuration with a negative `MaxRetiredKeys`. -/
def negativeMaxConfig : TokenConfig := { sampleHMACConfig with MaxRetiredKeys := -1 }

def negativeMaxManager : TokenManager :=
  { sampleHMACManager with
    cfg := negativeMaxConfig, signer := some (.hmac (NewHMACSigner negativeMaxConfig)) }

/-- Whether a call returned a nil error. -/
def Outcome.succeeded : Outcome → Bool
  | .returned none _ => true
  | _ => false

/-- Whether a call came back to its caller with a return value. -/
def Outcome.isReturn : Outcome → Bool
  | .returned _ _ => true
  | _ => false

/-- The token that the rotated RS256 sample manager would issue for
`sampleClaims` if `Generate` signed with the current key `sampleKeyA`. -/
def tokenUnderCurrentKey : Except Err TokenString :=
  RSASigner.Sign sampleLib { sampleRSASigner with privateKey := sampleKeyA }
    (stampClaims sampleRSAConfig sampleClaims 1000000000500 1000000000600 1000000000700)

/-- The stamped sample claims: issued in the second that starts at 1000 s,
expiring 15 minutes later. -/
def sampleStamped : EnterpriseClaims :=
  { sampleClaims with
    Registered :=
      { Issuer := goStr "svc-auth", Subject := goStr "", Audience := [goStr "svc-api"],
        ExpiresAt := some 1900000000000, NotBefore := some 1000000000000,
        IssuedAt := some 1000000000000, ID := goStr "" } }

/-- The token that `sampleHMACManager` generates for `sampleClaims` when its
three clock readings fall in the second that starts at 1000 s. -/
def sampleHMACToken : TokenString := .compact "HS256" sampleStamped [32, 5, 42, 256]

/-- Claims with the validity window of `sampleStamped` but an issuer and an
audience that the sample configurations do not name. -/
def foreignClaims : EnterpriseClaims :=
  { sampleClaims with
    Registered :=
      { Issuer := goStr "intruder", Subject := goStr "", Audience := [goStr "elsewhere"],
        ExpiresAt := some 1900000000000, NotBefore := some 1000000000000,
        IssuedAt := some 1000000000000, ID := goStr "" } }

/-- The foreign claims signed with the HS256 sample secret. -/
def foreignHMACToken : TokenString := .compact "HS256" foreignClaims [32, 5, 42, 256]

/-- The foreign claims signed with the RS256 sample key. -/
def foreignRSAToken : TokenString := .compact "RS256" foreignClaims [3233, 2753, 42]

/-- The sample claims with the byte 0xFF, which is not valid UTF-8, appended
to `cip` (the Go string `"10.0.0.5\xff"`). -/
def invalidTextClaims : EnterpriseClaims :=
  { sampleClaims with ClientIP := { units := (goStr "10.0.0.5").units ++ [.bad 0xFF] } }

/-- The `cip` of `invalidTextClaims` after the JSON encoding: U+FFFD stands in
for the byte 0xFF. -/
def replacedClientIP : GoString :=
  { units := (goStr "10.0.0.5").units ++ [.rune (Char.ofNat 0xFFFD)] }

/-- The token that `sampleHMACManager` generates for `invalidTextClaims` when
its three clock readings fall in the second that starts at 1000 s. -/
def invalidTextToken : TokenString :=
  .compact "HS256" { sampleStamped with ClientIP := replacedClientIP } [32, 5, 42, 256]

/-- Both PEM texts of the configuration decode to RSA keys: `priv` from the
private-key text (as PKCS#1, or else as PKCS#8 holding an RSA key) and `pub`
from the public-key text. -/
def ParsesAsRSAKeys (lib : Lib) (cfg : TokenConfig) (priv : RSAPrivateKey)
    (pub : RSAPublicKey) : Prop :=
  ∃ privateKeyBlock publicKeyBlock,
    lib.pemDecode cfg.PrivateKey = some privateKeyBlock ∧
    parsePrivateKeyBlock lib privateKeyBlock = .ok priv ∧
    lib.pemDecode cfg.PublicKey = some publicKeyBlock ∧
    lib.ParsePKIXPublicKey publicKeyBlock = some (.rsa pub)

/-- The RS256 sample configuration with a public key of another exponent. -/
def mismatchedRSAConfig : TokenConfig :=
  { sampleRSAConfig with PublicKey := String.mk [Char.ofNat 3233, Char.ofNat 5] }

/-- The HS256 sample configuration with a secret of five bytes. -/
def shortSecretConfig : TokenConfig := { sampleHMACConfig with SecretKey := "short" }

/-- The token the signer of `shortSecretConfig` issues for `sampleStamped`. -/
def shortSecretToken : TokenString := .compact "HS256" sampleStamped [5, 5, 42, 256]

/-! ## token_server.go -/

structure TokenService where
  tokenManager : TokenManager
  deriving DecidableEq, Repr

/-- The package-level variables of `token_server.go`: the pointer `instance`
(`none` is nil) and whether `once` has already run its function. -/
structure ServiceGlobals where
  serviceInstance : Option TokenService
  onceDone : Bool
  deriving DecidableEq, Repr

/-- The package-level variables when the process starts. -/
def initialGlobals : ServiceGlobals := { serviceInstance := none, onceDone := false }

/-- The statement `once.Do(func() ...)` of `NewTokenService`: the value left in
the local `initErr` and the package-level variables afterwards.  The function
runs only if `once` has not run it before. -/
def onceDoInit (lib : Lib) (g : ServiceGlobals) (cfg : TokenConfig) :
    Option Err × ServiceGlobals :=
  if g.onceDone then (none, g)
  else
    match NewTokenManager lib cfg with
    | .error err => (some err, { g with onceDone := true })
    | .ok tm => (none, { serviceInstance := some { tokenManager := tm }, onceDone := true })

/-- Models `NewTokenService`: the returned pair of pointer and error, and the
package-level variables after the call. -/
def NewTokenService (lib : Lib) (g : ServiceGlobals) (cfg : TokenConfig) :
    (Option TokenService × Option Err) × ServiceGlobals :=
  let r := onceDoInit lib g cfg
  match r.1 with
  | some initErr => ((none, some initErr), r.2)
  | none => ((r.2.serviceInstance, none), r.2)

/-- The results of a sequence of `NewTokenService` calls, in order, starting
from the package-level variables `g`. -/
def serviceCalls (lib : Lib) : ServiceGlobals → List TokenConfig →
    List (Option TokenService × Option Err)
  | _, [] => []
  | g, cfg :: rest =>
      (NewTokenService lib g cfg).1 :: serviceCalls lib (NewTokenService lib g cfg).2 rest

/-- The shape every call is claimed to return: a service and a nil error, or a
nil service and an error. -/
def wellFormedResult (r : Option TokenService × Option Err) : Bool :=
  (r.1.isSome && r.2.isNone) || (r.1.isNone && r.2.isSome)

def TokenService.GenerateDeviceToken (lib : Lib) (ts : TokenService) (userID : Nat)
    (clientIP deviceID : GoString) (now1 now2 now3 : Int) : Except Err TokenString :=
  let claims : EnterpriseClaims :=
    { UserID := userID, ClientIP := clientIP, DeviceID := deviceID,
      Registered := { Issuer := goStr "", Subject := goStr "", Audience := [],
                      ExpiresAt := none, NotBefore := none, IssuedAt := none,
                      ID := goStr "" } }
  ts.tokenManager.Generate lib claims now1 now2 now3

def TokenService.VerifyAndParse (lib : Lib) (ts : TokenService) (now : Int)
    (tokenString : TokenString) : Option (Except Err EnterpriseClaims) :=
  ts.tokenManager.Verify lib now tokenString

def TokenService.RotateKeys (ts : TokenService) (generated : Except Err RSAPrivateKey)
    (now : Int) : Outcome :=
  rotateKey ts.tokenManager generated now

/-- The signature of a token checks out for a signer: it is the HMAC of the
first two segments under the secret of the HMAC signer, or a PKCS#1 v1.5
signature of them that verifies under the public key of the RSA signer, with
the hash that the algorithm of the header names. -/
def SignatureChecked (lib : Lib) (signer : Signer) (alg : String) (payload : EnterpriseClaims)
    (sig : Signature) : Prop :=
  match signer with
  | .hmac h =>
      ∃ hash, alg = (jwt.SigningMethod.HMAC hash).Alg ∧
        sig = lib.hmac hash h.secret { alg := alg, payload := payload }
  | .rsa s =>
      ∃ hash, alg = (jwt.SigningMethod.RSA hash).Alg ∧
        lib.VerifyPKCS1v15 hash s.publicKey { alg := alg, payload := payload } sig = true

/-- The foreign claims under a signature made with another RSA key. -/
def forgedRSAToken : TokenString := .compact "RS256" foreignClaims [3234, 2753, 42]

/-- The foreign claims under an HMAC made with a secret of another length. -/
def forgedHMACToken : TokenString := .compact "HS256" foreignClaims [31, 5, 42, 256]

/-- The RS256 sample configuration with no room for retired keys. -/
def zeroCapacityConfig : TokenConfig := { sampleRSAConfig with MaxRetiredKeys := 0 }

def zeroCapacityManager : TokenManager :=
  { sampleRSAManager with
    cfg := zeroCapacityConfig
    signer := some (.rsa { sampleRSASigner with cfg := some zeroCapacityConfig }) }

/-- The manager without room after a first rotation, at time 0, generating `sampleKeyA`. -/
def zeroCapacityRotated : TokenManager :=
  (rotateKey zeroCapacityManager (.ok sampleKeyA) 0).state

/-- The RS256 sample configuration with room for three retired keys. -/
def wideConfig : TokenConfig := { sampleRSAConfig with MaxRetiredKeys := 3 }

def wideManager : TokenManager :=
  { sampleRSAManager with
    cfg := wideConfig
    signer := some (.rsa { sampleRSASigner with cfg := some wideConfig }) }

/-- The manager with room for three after two rotations, generating
`sampleKeyA` at time 0 and `sampleKeyB` one second later. -/
def wideRotatedTwice : TokenManager :=
  (rotateKey (rotateKey wideManager (.ok sampleKeyA) 0).state (.ok sampleKeyB) 1000000000).state

/-! ## Theorems -/

theorem truncateSecond_le (t : Int) : truncateSecond t ≤ t := by
  unfold truncateSecond Second
  omega

theorem truncateSecond_idem (t : Int) : truncateSecond (truncateSecond t) = truncateSecond t := by
  unfold truncateSecond Second
  omega

theorem jsonUnit_idem (u : GoUnit) : jsonUnit (jsonUnit u) = jsonUnit u := by
  cases u <;> rfl

theorem jsonString_idem (s : GoString) : jsonString (jsonString s) = jsonString s := by
  obtain ⟨units⟩ := s
  simp only [jsonString, List.map_map, GoString.mk.injEq]
  apply List.map_congr_left
  intro u _
  exact jsonUnit_idem u

/-- The JSON encoding leaves valid UTF-8 as it is. -/
theorem jsonString_of_valid (s : GoString) (h : s.Valid = true) : jsonString s = s := by
  obtain ⟨units⟩ := s
  simp only [GoString.Valid, List.all_eq_true] at h
  simp only [jsonString, GoString.mk.injEq]
  conv_rhs => rw [← List.map_id units]
  apply List.map_congr_left
  intro u hu
  have := h u hu
  cases u with
  | rune c => rfl
  | bad b => simp [GoUnit.isRune] at this

theorem goStr_valid (s : String) : (goStr s).Valid = true := by
  simp [GoString.Valid, goStr, GoUnit.isRune]

theorem wireClaims_idem (c : EnterpriseClaims) :
    jwt.wireClaims (jwt.wireClaims c) = jwt.wireClaims c := by
  obtain ⟨uid, cip, did, ⟨iss, sub, aud, exp, nbf, iat, jti⟩⟩ := c
  have haud : List.map (jsonString ∘ jsonString) aud = List.map jsonString aud := by
    apply List.map_congr_left
    intro a _
    exact jsonString_idem a
  cases exp <;> cases nbf <;> cases iat <;>
    simp [jwt.wireClaims, jwt.NewNumericDate, truncateSecond_idem, jsonString_idem, haud]

/-- The stamped claims pass through the JSON encoding unchanged when the
`cip` and `did` given and the configured issuer and audience are valid UTF-8. -/
theorem wireClaims_stampClaims (cfg : TokenConfig) (c : EnterpriseClaims)
    (now1 now2 now3 : Int) (hcip : c.ClientIP.Valid = true) (hdid : c.DeviceID.Valid = true)
    (hiss : cfg.Issuer.Valid = true) (haud : ∀ a ∈ cfg.Audience, a.Valid = true) :
    jwt.wireClaims (stampClaims cfg c now1 now2 now3) = stampClaims cfg c now1 now2 now3 := by
  have haud2 : List.map jsonString cfg.Audience = cfg.Audience := by
    conv_rhs => rw [← List.map_id cfg.Audience]
    apply List.map_congr_left
    intro a ha
    exact jsonString_of_valid a (haud a ha)
  simp [jwt.wireClaims, stampClaims, jwt.NewNumericDate, truncateSecond_idem,
    jsonString_of_valid _ hcip, jsonString_of_valid _ hdid, jsonString_of_valid _ hiss,
    jsonString_of_valid _ (goStr_valid ""), haud2]

/-- The claims validator accepts claims whose expiry lies ahead and whose
not-before has been reached, whatever their issuer and audience. -/
theorem Validate_none_of_window (c : EnterpriseClaims) (now : Int)
    (hexp : ∀ e, c.Registered.ExpiresAt = some e → now < e)
    (hnbf : ∀ b, c.Registered.NotBefore = some b → b ≤ now) :
    jwt.Validate c now = none := by
  have h1 : jwt.verifyExpiresAt c now = none := by
    unfold jwt.verifyExpiresAt
    cases he : c.Registered.ExpiresAt with
    | none => rfl
    | some e => simp [hexp e he]
  have h2 : jwt.verifyNotBefore c now = none := by
    unfold jwt.verifyNotBefore
    cases hb : c.Registered.NotBefore with
    | none => rfl
    | some b =>
        have := hnbf b hb
        simp [not_lt.mpr this]
  simp [jwt.Validate, h1, h2]

/-- What the HMAC signer signs, it verifies, when the validator accepts the claims. -/
theorem hmacSigner_verify_sign (lib : Lib) (h : HMACSigner) (c : EnterpriseClaims) (now : Int)
    (tok : TokenString) (hsign : h.Sign lib c = .ok tok)
    (hval : jwt.Validate (jwt.wireClaims c) now = none) :
    h.Verify lib now tok = .ok (jwt.wireClaims c) := by
  simp only [HMACSigner.Sign, jwt.SignedString, jwt.SigningMethod.Sign, jwt.SigningMethod.Alg]
    at hsign
  injection hsign with hsign
  subst hsign
  simp [HMACSigner.Verify, jwt.ParseWithClaims, jwt.GetSigningMethod, jwt.SigningMethod.Verify,
    wireClaims_idem, hval]

/-- What the RSA signer signs, it verifies, when its two keys match, the key
is consistent and the validator accepts the claims. -/
theorem rsaSigner_verify_sign (lib : Lib) (s : RSASigner) (c : EnterpriseClaims) (now : Int)
    (tok : TokenString) (hpair : s.publicKey = s.privateKey.PublicKey)
    (hkey : RSAConsistent lib s.privateKey)
    (hsign : s.Sign lib c = .ok tok)
    (hval : jwt.Validate (jwt.wireClaims c) now = none) :
    s.Verify lib now tok = .ok (jwt.wireClaims c) := by
  simp only [RSASigner.Sign, jwt.SignedString, jwt.SigningMethod.Sign, jwt.SigningMethod.Alg]
    at hsign
  cases hsig : lib.SignPKCS1v15 .SHA256 s.privateKey
      { alg := "RS256", payload := jwt.wireClaims c } with
  | none => simp [hsig] at hsign
  | some sig =>
      simp only [hsig] at hsign
      injection hsign with hsign
      subst hsign
      have hv := hkey _ _ _ hsig
      simp [RSASigner.Verify, jwt.ParseWithClaims, jwt.GetSigningMethod, RSASigner.keyFunc,
        jwt.SigningMethod.Verify, wireClaims_idem, hval, hpair, hv]

/-- A successful `parseRSAKeys` returns a public key equal to the public part
of the private key it returns. -/
theorem parseRSAKeys_pair (lib : Lib) (cfg : Option TokenConfig) (priv : RSAPrivateKey)
    (pub : RSAPublicKey) (h : parseRSAKeys lib cfg = .ok (priv, pub)) :
    pub = priv.PublicKey := by
  unfold parseRSAKeys at h
  repeat (split at h <;> try contradiction)
  rename_i hne
  simp only [Except.ok.injEq, Prod.mk.injEq] at h
  obtain ⟨h1, h2⟩ := h
  rw [h1, h2] at hne
  have hN : priv.PublicKey.N = pub.N := by
    by_contra hc
    exact hne (Or.inl hc)
  have hE : priv.PublicKey.E = pub.E := by
    by_contra hc
    exact hne (Or.inr hc)
  cases pub
  cases hp : priv.PublicKey
  simp_all

/-- The shape of a freshly constructed manager: it keeps the configuration,
its signer is the HMAC signer of the configuration or an RSA signer with a
matching key pair, and its key state is empty. -/
theorem NewTokenManager_shape (lib : Lib) (cfg : TokenConfig) (tm : TokenManager)
    (h : NewTokenManager lib cfg = .ok tm) :
    tm.cfg = cfg ∧ tm.currentKey = none ∧ tm.oldKeys = [] ∧ tm.mu = false ∧
      ((tm.signer = some (.hmac (NewHMACSigner cfg)) ∧ 32 ≤ strLen cfg.SecretKey) ∨
        ∃ s, tm.signer = some (.rsa s) ∧ s.publicKey = s.privateKey.PublicKey) := by
  unfold NewTokenManager initSigner at h
  simp only at h
  split at h
  · simp at h
  · rename_i tm0 heq
    simp only [Except.ok.injEq] at h
    subst h
    split at heq
    · split at heq
      · simp at heq
      · rename_i hlen
        simp only [Except.ok.injEq] at heq
        subst heq
        refine ⟨rfl, rfl, rfl, rfl, Or.inl ⟨rfl, ?_⟩⟩
        exact not_lt.mp hlen
    · split at heq
      · split at heq
        · simp at heq
        · rename_i rsaSigner hs
          simp only [Except.ok.injEq] at heq
          subst heq
          refine ⟨rfl, rfl, rfl, rfl, Or.inr ⟨rsaSigner, rfl, ?_⟩⟩
          unfold NewRSASigner at hs
          split at hs
          · simp at hs
          · rename_i privateKey publicKey hp
            simp only [Except.ok.injEq] at hs
            subst hs
            exact parseRSAKeys_pair lib _ _ _ hp
      · simp at heq

/-- Whatever the strings: when `Generate` returns a token, `Verify` of that
token at any later time before the stamped expires-at succeeds and returns the
stamped claims as the JSON encoding keeps them. -/
theorem generate_verify_wire (lib : Lib) (cfg : TokenConfig) (tm : TokenManager)
    (claims : EnterpriseClaims) (now1 now2 now3 now : Int) (tok : TokenString)
    (hbuilt : NewTokenManager lib cfg = .ok tm)
    (hkey : ∀ s, tm.signer = some (.rsa s) → RSAConsistent lib s.privateKey)
    (hgen : tm.Generate lib claims now1 now2 now3 = .ok tok)
    (hclock : now3 ≤ now)
    (hexp : now < jwt.NewNumericDate (now1 + cfg.Expiration)) :
    tm.Verify lib now tok =
      some (.ok (jwt.wireClaims (stampClaims cfg claims now1 now2 now3))) := by
  obtain ⟨hcfg, -, -, -, hsigner⟩ := NewTokenManager_shape lib cfg tm hbuilt
  have hval : jwt.Validate (jwt.wireClaims (stampClaims cfg claims now1 now2 now3)) now
      = none := by
    apply Validate_none_of_window
    · intro e he
      simp only [jwt.wireClaims, stampClaims, Option.map_some', Option.some.injEq] at he
      subst he
      simp only [jwt.NewNumericDate, truncateSecond_idem]
      exact hexp
    · intro b hb
      simp only [jwt.wireClaims, stampClaims, Option.map_some', Option.some.injEq] at hb
      subst hb
      simp only [jwt.NewNumericDate, truncateSecond_idem]
      exact le_trans (truncateSecond_le now3) hclock
  rcases hsigner with ⟨hs, -⟩ | ⟨s, hs, hpair⟩
  · simp only [TokenManager.Generate, hs, hcfg, Signer.Sign] at hgen
    simp only [TokenManager.Verify, hs, Signer.Verify]
    rw [hmacSigner_verify_sign lib _ _ now tok hgen hval]
  · simp only [TokenManager.Generate, hs, hcfg, Signer.Sign] at hgen
    simp only [TokenManager.Verify, hs, Signer.Verify]
    rw [rsaSigner_verify_sign lib s _ now tok hpair (hkey s hs) hgen hval]

/-- C1, counterexample.  The HS256 sample manager is given the sample claims
with the byte 0xFF appended to `cip`, which is not valid UTF-8.  `Generate`
returns a token, and `Verify` one minute later succeeds, but the `cip` it
returns ends in U+FFFD instead of the byte 0xFF: it is not the `cip` given. -/
theorem roundtrip_rewrites_invalid_utf8 :
    NewTokenManager sampleLib sampleHMACConfig = .ok sampleHMACManager ∧
      invalidTextClaims.ClientIP = { units := (goStr "10.0.0.5").units ++ [.bad 0xFF] } ∧
      sampleHMACManager.Generate sampleLib invalidTextClaims 1000000000500 1000000000600
        1000000000700 = .ok invalidTextToken ∧
      sampleHMACManager.Verify sampleLib 1060000000000 invalidTextToken =
        some (.ok { sampleStamped with ClientIP := replacedClientIP }) ∧
      replacedClientIP =
        { units := (goStr "10.0.0.5").units ++ [.rune (Char.ofNat 0xFFFD)] } ∧
      replacedClientIP ≠ invalidTextClaims.ClientIP :=
  ⟨rfl, rfl, rfl, rfl, rfl, by decide⟩

/-- C1, amended.  For a manager built by `NewTokenManager` (HMAC signer with a
secret of at least 32 bytes, or RSA signer with a matching key pair whose
private key signs consistently), every configuration whose issuer and audience
values are valid UTF-8 and every claims value whose cip and did are valid
UTF-8: when `Generate` returns a token, `Verify` of that token at any later
time before the stamped expires-at succeeds and returns the given uid, cip and
did together with exactly the registered claims that `Generate` stamped. -/
theorem generate_verify_roundtrip (lib : Lib) (cfg : TokenConfig) (tm : TokenManager)
    (claims : EnterpriseClaims) (now1 now2 now3 now : Int) (tok : TokenString)
    (hbuilt : NewTokenManager lib cfg = .ok tm)
    (hkey : ∀ s, tm.signer = some (.rsa s) → RSAConsistent lib s.privateKey)
    (hgen : tm.Generate lib claims now1 now2 now3 = .ok tok)
    (hclock : now3 ≤ now)
    (hexp : now < jwt.NewNumericDate (now1 + cfg.Expiration))
    (hcip : claims.ClientIP.Valid = true) (hdid : claims.DeviceID.Valid = true)
    (hiss : cfg.Issuer.Valid = true) (haud : ∀ a ∈ cfg.Audience, a.Valid = true) :
    tm.Verify lib now tok = some (.ok (stampClaims cfg claims now1 now2 now3)) ∧
      (stampClaims cfg claims now1 now2 now3).UserID = claims.UserID ∧
      (stampClaims cfg claims now1 now2 now3).ClientIP = claims.ClientIP ∧
      (stampClaims cfg claims now1 now2 now3).DeviceID = claims.DeviceID ∧
      (stampClaims cfg claims now1 now2 now3).Registered.Issuer = cfg.Issuer ∧
      (stampClaims cfg claims now1 now2 now3).Registered.Audience = cfg.Audience := by
  refine ⟨?_, rfl, rfl, rfl, rfl, rfl⟩
  rw [generate_verify_wire lib cfg tm claims now1 now2 now3 now tok hbuilt hkey hgen hclock
    hexp, wireClaims_stampClaims cfg claims now1 now2 now3 hcip hdid hiss haud]

theorem sampleLib_consistent (k : RSAPrivateKey) : RSAConsistent sampleLib k := by
  intro h input sig hs
  simp only [sampleLib, Option.some.injEq] at hs
  subst hs
  simp [sampleLib]

/-- Witness of C1 on the RS256 sample: the manager is the one `NewTokenManager`
builds, the token is the one `Generate` returns, and `Verify` one minute later
returns the stamped claims. -/
theorem generate_verify_roundtrip_witness :
    NewTokenManager sampleLib sampleRSAConfig = .ok sampleRSAManager ∧
      sampleRSAManager.Generate sampleLib sampleClaims 1000000000500 1000000000600
        1000000000700 = .ok sampleRSAToken ∧
      (sampleRSAManager.Verify sampleLib 1060000000000 sampleRSAToken =
          some (.ok (stampClaims sampleRSAConfig sampleClaims 1000000000500 1000000000600
            1000000000700)) ∧
        (stampClaims sampleRSAConfig sampleClaims 1000000000500 1000000000600
            1000000000700).UserID = sampleClaims.UserID ∧
        (stampClaims sampleRSAConfig sampleClaims 1000000000500 1000000000600
            1000000000700).ClientIP = sampleClaims.ClientIP ∧
        (stampClaims sampleRSAConfig sampleClaims 1000000000500 1000000000600
            1000000000700).DeviceID = sampleClaims.DeviceID ∧
        (stampClaims sampleRSAConfig sampleClaims 1000000000500 1000000000600
            1000000000700).Registered.Issuer = sampleRSAConfig.Issuer ∧
        (stampClaims sampleRSAConfig sampleClaims 1000000000500 1000000000600
            1000000000700).Registered.Audience = sampleRSAConfig.Audience) :=
  ⟨rfl, rfl,
    generate_verify_roundtrip sampleLib sampleRSAConfig sampleRSAManager sampleClaims
      1000000000500 1000000000600 1000000000700 1060000000000 sampleRSAToken rfl
      (fun s _ => sampleLib_consistent s.privateKey) rfl (by decide) (by decide)
      rfl rfl rfl (by decide)⟩

/-! ### The map operations -/

theorem KeyMap.len_eq_keys (m : KeyMap) : m.len = m.keys.length := by
  simp [KeyMap.len, KeyMap.keys]

theorem KeyMap.mem_keys_set (m : KeyMap) (k x : String) (v : CryptoPublicKey) :
    x ∈ (m.set k v).keys ↔ x = k ∨ x ∈ m.keys := by
  induction m with
  | nil => simp [KeyMap.set, KeyMap.keys]
  | cons e rest ih =>
      obtain ⟨k0, v0⟩ := e
      simp only [KeyMap.set]
      split
      · rename_i h
        subst h
        simp [KeyMap.keys]
      · simp only [KeyMap.keys, List.map_cons, List.mem_cons] at ih ⊢
        rw [ih]
        tauto

theorem KeyMap.nodup_set (m : KeyMap) (k : String) (v : CryptoPublicKey)
    (h : m.keys.Nodup) : (m.set k v).keys.Nodup := by
  induction m with
  | nil => simp [KeyMap.set, KeyMap.keys]
  | cons e rest ih =>
      obtain ⟨k0, v0⟩ := e
      have h2 : k0 ∉ KeyMap.keys rest ∧ (KeyMap.keys rest).Nodup := by
        simpa [KeyMap.keys] using h
      simp only [KeyMap.set]
      split
      · rename_i hk
        subst hk
        simpa [KeyMap.keys] using h
      · rename_i hk
        have h3 : k0 ∉ (KeyMap.set rest k v).keys := by
          rw [KeyMap.mem_keys_set]
          rintro (h4 | h4)
          · exact hk h4
          · exact h2.1 h4
        have h5 := ih h2.2
        simp only [KeyMap.keys, List.map_cons, List.nodup_cons] at h3 h5 ⊢
        exact ⟨h3, h5⟩

theorem KeyMap.len_set_le (m : KeyMap) (k : String) (v : CryptoPublicKey) :
    (m.set k v).len ≤ m.len + 1 := by
  induction m with
  | nil => simp [KeyMap.set, KeyMap.len]
  | cons e rest ih =>
      obtain ⟨k0, v0⟩ := e
      simp only [KeyMap.set]
      split
      · simp [KeyMap.len]
      · simp only [KeyMap.len, List.length_cons] at ih ⊢
        omega

theorem KeyMap.set_ne_nil (m : KeyMap) (k : String) (v : CryptoPublicKey) :
    m.set k v ≠ [] := by
  cases m with
  | nil => simp [KeyMap.set]
  | cons e rest =>
      obtain ⟨k0, v0⟩ := e
      simp only [KeyMap.set]
      split <;> simp

theorem KeyMap.mem_keys_delete (m : KeyMap) (k x : String) :
    x ∈ (m.delete k).keys ↔ x ≠ k ∧ x ∈ m.keys := by
  induction m with
  | nil => simp [KeyMap.delete, KeyMap.keys]
  | cons e rest ih =>
      obtain ⟨k0, v0⟩ := e
      simp only [KeyMap.delete]
      split
      · rename_i h
        subst h
        simp only [KeyMap.keys, List.map_cons, List.mem_cons] at ih ⊢
        rw [ih]
        tauto
      · rename_i h
        simp only [KeyMap.keys, List.map_cons, List.mem_cons] at ih ⊢
        rw [ih]
        constructor
        · rintro (h1 | h1)
          · exact ⟨fun hx => h (h1 ▸ hx), Or.inl h1⟩
          · exact ⟨h1.1, Or.inr h1.2⟩
        · rintro ⟨h1, h2 | h2⟩
          · exact Or.inl h2
          · exact Or.inr ⟨h1, h2⟩

theorem KeyMap.nodup_delete (m : KeyMap) (k : String) (h : m.keys.Nodup) :
    (m.delete k).keys.Nodup := by
  induction m with
  | nil => simp [KeyMap.delete, KeyMap.keys]
  | cons e rest ih =>
      obtain ⟨k0, v0⟩ := e
      have h2 : k0 ∉ KeyMap.keys rest ∧ (KeyMap.keys rest).Nodup := by
        simpa [KeyMap.keys] using h
      simp only [KeyMap.delete]
      split
      · exact ih h2.2
      · have h3 : k0 ∉ (KeyMap.delete rest k).keys := by
          rw [KeyMap.mem_keys_delete]
          exact fun h4 => h2.1 h4.2
        have h5 := ih h2.2
        simp only [KeyMap.keys, List.map_cons, List.nodup_cons] at h3 h5 ⊢
        exact ⟨h3, h5⟩

theorem KeyMap.len_delete_le (m : KeyMap) (k : String) : (m.delete k).len ≤ m.len := by
  induction m with
  | nil => simp [KeyMap.delete]
  | cons e rest ih =>
      obtain ⟨k0, v0⟩ := e
      simp only [KeyMap.delete]
      split
      · simp only [KeyMap.len, List.length_cons] at ih ⊢
        omega
      · simp only [KeyMap.len, List.length_cons] at ih ⊢
        omega

theorem KeyMap.delete_of_not_mem (m : KeyMap) (k : String) (h : k ∉ m.keys) :
    m.delete k = m := by
  induction m with
  | nil => rfl
  | cons e rest ih =>
      obtain ⟨k0, v0⟩ := e
      have h2 : k ≠ k0 ∧ k ∉ KeyMap.keys rest := by
        simpa [KeyMap.keys] using h
      have h3 : k0 ≠ k := fun hh => h2.1 hh.symm
      simp [KeyMap.delete, h3, ih h2.2]

/-- Deleting a key that is present removes exactly one entry. -/
theorem KeyMap.len_delete_of_mem (m : KeyMap) (k : String) (hk : k ∈ m.keys)
    (hnd : m.keys.Nodup) : (m.delete k).len + 1 = m.len := by
  induction m with
  | nil => simp [KeyMap.keys] at hk
  | cons e rest ih =>
      obtain ⟨k0, v0⟩ := e
      have h2 : k0 ∉ KeyMap.keys rest ∧ (KeyMap.keys rest).Nodup := by
        simpa [KeyMap.keys] using hnd
      simp only [KeyMap.delete]
      split
      · rename_i h
        subst h
        rw [KeyMap.delete_of_not_mem rest k0 h2.1]
        simp [KeyMap.len]
      · rename_i h
        have hk2 : k ∈ KeyMap.keys rest := by
          simp only [KeyMap.keys, List.map_cons, List.mem_cons] at hk
          rcases hk with h3 | h3
          · exact absurd h3.symm h
          · exact h3
        have := ih hk2 h2.2
        simp only [KeyMap.len, List.length_cons] at this ⊢
        omega

theorem KeyMap.get_set_same (m : KeyMap) (k : String) (v : CryptoPublicKey) :
    (m.set k v).get k = some v := by
  induction m with
  | nil => simp [KeyMap.set, KeyMap.get]
  | cons e rest ih =>
      obtain ⟨k0, v0⟩ := e
      simp only [KeyMap.set]
      split
      · simp [KeyMap.get]
      · rename_i h
        simp [KeyMap.get, h, ih]

theorem KeyMap.get_set_ne (m : KeyMap) (k k2 : String) (v : CryptoPublicKey) (h : k2 ≠ k) :
    (m.set k v).get k2 = m.get k2 := by
  have hne : k ≠ k2 := fun hh => h hh.symm
  induction m with
  | nil => simp [KeyMap.set, KeyMap.get, hne]
  | cons e rest ih =>
      obtain ⟨k0, v0⟩ := e
      simp only [KeyMap.set]
      split
      · rename_i h0
        subst h0
        simp [KeyMap.get, hne]
      · by_cases h2 : k0 = k2
        · simp [KeyMap.get, h2]
        · simp [KeyMap.get, h2, ih]

theorem KeyMap.get_delete_ne (m : KeyMap) (k k2 : String) (h : k2 ≠ k) :
    (m.delete k).get k2 = m.get k2 := by
  have hne : k ≠ k2 := fun hh => h hh.symm
  induction m with
  | nil => rfl
  | cons e rest ih =>
      obtain ⟨k0, v0⟩ := e
      simp only [KeyMap.delete]
      split
      · rename_i h0
        subst h0
        simp [KeyMap.get, hne, ih]
      · by_cases h2 : k0 = k2
        · simp [KeyMap.get, h2]
        · simp [KeyMap.get, h2, ih]

/-! ### The eviction loop -/

theorem ltChars_iff (l1 l2 : List Char) : ltChars l1 l2 = true ↔ l1 < l2 := by
  induction l1 generalizing l2 with
  | nil =>
      cases l2 with
      | nil => simp [ltChars]
      | cons b bs => simp [ltChars, List.nil_lt_cons]
  | cons a as ih =>
      cases l2 with
      | nil =>
          simp only [ltChars, Bool.false_eq_true, false_iff]
          exact List.Lex.not_nil_right _ _
      | cons b bs =>
          simp only [ltChars]
          by_cases hab : a < b
          · simp only [hab, if_true, true_iff]
            exact List.Lex.rel hab
          · by_cases hba : b < a
            · simp only [hab, hba, if_false, if_true, Bool.false_eq_true, false_iff]
              intro hlex
              cases hlex with
              | cons h => exact lt_irrefl _ hba
              | rel h => exact hab h
            · have heq : a = b := le_antisymm (not_lt.mp hba) (not_lt.mp hab)
              subst heq
              simp only [hab, if_false, ih bs]
              exact (List.Lex.cons_iff).symm

/-- The structural comparison is the order of strings. -/
theorem strLess_iff (a b : String) : strLess a b = true ↔ a < b := by
  rw [String.lt_iff_toList_lt]
  exact ltChars_iff a.data b.data

theorem oldestKeyLoop_mem_or (ks : List String) (o : String) :
    oldestKeyLoop ks o ∈ ks ∨ oldestKeyLoop ks o = o := by
  induction ks generalizing o with
  | nil => exact Or.inr rfl
  | cons k ks ih =>
      simp only [oldestKeyLoop]
      rcases ih (if o = "" ∨ strLess k o = true then k else o) with h | h
      · exact Or.inl (List.mem_cons_of_mem _ h)
      · rw [h]
        split
        · exact Or.inl (List.mem_cons_self _ _)
        · exact Or.inr rfl

/-- On a non-empty map the loop ends on one of the keys of the map. -/
theorem oldestKeyLoop_mem (ks : List String) (h : ks ≠ []) : oldestKeyLoop ks "" ∈ ks := by
  cases ks with
  | nil => exact absurd rfl h
  | cons k ks =>
      simp only [oldestKeyLoop, true_or, if_true]
      rcases oldestKeyLoop_mem_or ks k with h1 | h1
      · exact List.mem_cons_of_mem _ h1
      · rw [h1]
        exact List.mem_cons_self _ _

theorem oldestKeyLoop_le (ks : List String) (o : String) (hks : ∀ k ∈ ks, k ≠ "") :
    (∀ k ∈ ks, oldestKeyLoop ks o ≤ k) ∧ (o ≠ "" → oldestKeyLoop ks o ≤ o) := by
  induction ks generalizing o with
  | nil => exact ⟨fun k hk => absurd hk (List.not_mem_nil k), fun _ => le_refl _⟩
  | cons k ks ih =>
      have hk0 : k ≠ "" := hks k (List.mem_cons_self _ _)
      have hks2 : ∀ x ∈ ks, x ≠ "" := fun x hx => hks x (List.mem_cons_of_mem _ hx)
      simp only [oldestKeyLoop]
      by_cases hc : o = "" ∨ strLess k o = true
      · simp only [hc, if_true]
        obtain ⟨h1, h2⟩ := ih k hks2
        refine ⟨?_, ?_⟩
        · intro x hx
          rcases List.mem_cons.mp hx with hx | hx
          · rw [hx]
            exact h2 hk0
          · exact h1 x hx
        · intro ho
          rcases hc with hc | hc
          · exact absurd hc ho
          · exact le_trans (h2 hk0) (le_of_lt ((strLess_iff k o).mp hc))
      · simp only [hc, if_false]
        have ho : o ≠ "" := fun h => hc (Or.inl h)
        have hko : o ≤ k := not_lt.mp (fun h => hc (Or.inr ((strLess_iff k o).mpr h)))
        obtain ⟨h1, h2⟩ := ih o hks2
        refine ⟨?_, fun _ => h2 ho⟩
        intro x hx
        rcases List.mem_cons.mp hx with hx | hx
        · rw [hx]
          exact le_trans (h2 ho) hko
        · exact h1 x hx

/-! ### One rotation -/

theorem archiveKeyID_ne_empty (pubKey : RSAPublicKey) (id : String)
    (h : archiveKeyID pubKey = some id) : id ≠ "" := by
  unfold archiveKeyID at h
  simp only at h
  split at h
  · simp at h
  · rename_i hlen
    simp only [Option.some.injEq] at h
    subst h
    intro hc
    have h2 := congrArg String.length hc
    simp only [String.length, List.length_take] at h2
    simp only [String.length, List.length_nil] at h2
    omega

/-- What a rotation called on an unlocked manager leaves behind, however it
ends: the same configuration, an unlocked mutex, and as retired mapping the
archived mapping after the eviction block (the old mapping when the archival
panics). -/
theorem rotateKey_state (tm : TokenManager) (generated : Except Err RSAPrivateKey)
    (now : Int) (hmu : tm.mu = false) :
    (rotateKey tm generated now).state.cfg = tm.cfg ∧
      (rotateKey tm generated now).state.mu = false ∧
      (rotateKey tm generated now).state.oldKeys =
        (match archiveCurrent tm with
          | none => tm.oldKeys
          | some archived => evictOldest tm.cfg archived) := by
  have harch : archiveCurrent { tm with mu := true } = archiveCurrent tm := rfl
  unfold rotateKey
  simp only [hmu, Bool.false_eq_true, if_false, harch]
  cases ha : archiveCurrent tm with
  | none => simp [deferredUnlock, Unlock, Outcome.state]
  | some archived =>
      cases generated with
      | error err => simp [deferredUnlock, Unlock, Outcome.state]
      | ok newPrivateKey => simp [deferredUnlock, Unlock, Outcome.state]

theorem evictOldest_len_le (cfg : TokenConfig) (m : KeyMap) :
    (evictOldest cfg m).len ≤ m.len := by
  unfold evictOldest
  split
  · exact KeyMap.len_delete_le _ _
  · exact le_refl _

/-- At or beyond capacity the eviction block removes exactly one entry of a
non-empty mapping. -/
theorem evictOldest_len_full (cfg : TokenConfig) (m : KeyMap) (hnd : m.keys.Nodup)
    (hne : m ≠ []) (hfull : cfg.MaxRetiredKeys ≤ (m.len : Int)) :
    (evictOldest cfg m).len + 1 = m.len := by
  unfold evictOldest
  have hk : m.keys ≠ [] := by
    cases m with
    | nil => exact absurd rfl hne
    | cons e rest => simp [KeyMap.keys]
  simp only [ge_iff_le, hfull, if_true]
  exact KeyMap.len_delete_of_mem m _ (oldestKeyLoop_mem m.keys hk) hnd

theorem evictOldest_nodup (cfg : TokenConfig) (m : KeyMap) (hnd : m.keys.Nodup) :
    (evictOldest cfg m).keys.Nodup := by
  unfold evictOldest
  split
  · exact KeyMap.nodup_delete _ _ hnd
  · exact hnd

theorem evictOldest_keys_subset (cfg : TokenConfig) (m : KeyMap) (x : String)
    (hx : x ∈ (evictOldest cfg m).keys) : x ∈ m.keys := by
  unfold evictOldest at hx
  split at hx
  · exact ((KeyMap.mem_keys_delete _ _ _).mp hx).2
  · exact hx

theorem evictOldest_bound (cfg : TokenConfig) (m : KeyMap) (hnd : m.keys.Nodup)
    (hmax : 0 ≤ cfg.MaxRetiredKeys) (hlen : (m.len : Int) ≤ cfg.MaxRetiredKeys + 1) :
    ((evictOldest cfg m).len : Int) ≤ cfg.MaxRetiredKeys := by
  by_cases hfull : cfg.MaxRetiredKeys ≤ (m.len : Int)
  · by_cases hne : m = []
    · subst hne
      have := evictOldest_len_le cfg []
      simp only [KeyMap.len, List.length_nil, Nat.le_zero_eq] at this
      simp only [KeyMap.len] at this ⊢
      omega
    · have := evictOldest_len_full cfg m hnd hne hfull
      omega
  · have := evictOldest_len_le cfg m
    omega

/-- The archival block keeps the keys distinct and non-empty and adds at most
one entry. -/
theorem archiveCurrent_props (tm : TokenManager) (archived : KeyMap)
    (h : archiveCurrent tm = some archived) (hnd : tm.oldKeys.keys.Nodup)
    (hks : ∀ x ∈ tm.oldKeys.keys, x ≠ "") :
    archived.keys.Nodup ∧ (∀ x ∈ archived.keys, x ≠ "") ∧ archived.len ≤ tm.oldKeys.len + 1 := by
  unfold archiveCurrent at h
  split at h
  · rename_i rsaKey _
    split at h
    · rename_i keyID hid
      simp only [Option.some.injEq] at h
      subst h
      refine ⟨KeyMap.nodup_set _ _ _ hnd, ?_, KeyMap.len_set_le _ _ _⟩
      intro x hx
      rcases (KeyMap.mem_keys_set _ _ _ _).mp hx with hx | hx
      · rw [hx]
        exact archiveKeyID_ne_empty _ _ hid
      · exact hks x hx
    · simp at h
  · simp only [Option.some.injEq] at h
    subst h
    exact ⟨hnd, hks, Nat.le_succ _⟩

/-- The invariant of the reachable states: the configuration is the one given
at construction, the mutex is free, the retired identifiers are distinct and
non-empty, and the mapping respects a non-negative `MaxRetiredKeys`. -/
theorem reachable_invariant (lib : Lib) (cfg : TokenConfig) (tm : TokenManager)
    (h : Reachable lib cfg tm) :
    tm.cfg = cfg ∧ tm.mu = false ∧ tm.oldKeys.keys.Nodup ∧ (∀ x ∈ tm.oldKeys.keys, x ≠ "") ∧
      (0 ≤ cfg.MaxRetiredKeys → (tm.oldKeys.len : Int) ≤ cfg.MaxRetiredKeys) := by
  induction h with
  | fresh tm hb =>
      obtain ⟨hcfg, -, hold, hmu, -⟩ := NewTokenManager_shape lib cfg tm hb
      refine ⟨hcfg, hmu, ?_, ?_, ?_⟩
      · rw [hold]
        exact List.nodup_nil
      · rw [hold]
        intro x hx
        exact absurd hx (List.not_mem_nil x)
      · intro hmax
        rw [hold]
        exact hmax
  | rotate tm generated now _ ih =>
      obtain ⟨hcfg, hmu, hnd, hks, hlen⟩ := ih
      obtain ⟨h1, h2, h3⟩ := rotateKey_state tm generated now hmu
      rw [h1, h2, h3]
      refine ⟨hcfg, rfl, ?_⟩
      cases ha : archiveCurrent tm with
      | none => exact ⟨hnd, hks, hlen⟩
      | some archived =>
          obtain ⟨a1, a2, a3⟩ := archiveCurrent_props tm archived ha hnd hks
          refine ⟨evictOldest_nodup _ _ a1, ?_, ?_⟩
          · intro x hx
            exact a2 x (evictOldest_keys_subset _ _ _ hx)
          · intro hmax
            have := hlen hmax
            rw [hcfg]
            apply evictOldest_bound cfg archived a1 hmax
            omega

/-! ### C2: the size of the retired-key mapping -/

/-- C2, counterexample.  A freshly constructed manager whose configuration has
`MaxRetiredKeys = -1` holds zero retired keys, which is more than -1. -/
theorem retired_keys_bound_fails_negative_max :
    Reachable sampleLib negativeMaxConfig negativeMaxManager ∧
      ¬ ((negativeMaxManager.oldKeys.len : Int) ≤ negativeMaxConfig.MaxRetiredKeys) :=
  ⟨Reachable.fresh negativeMaxManager rfl, by decide⟩

/-- C2, amended.  For every configuration with a non-negative `MaxRetiredKeys`
and every state reachable from a freshly constructed manager by any sequence of
`rotateKey` calls, the retired-key mapping holds at most `MaxRetiredKeys`
entries; and a rotation whose archival brings the mapping to or beyond
capacity leaves exactly one entry fewer than the archived mapping held. -/
theorem retired_keys_bounded (lib : Lib) (cfg : TokenConfig) (tm : TokenManager)
    (hmax : 0 ≤ cfg.MaxRetiredKeys) (hreach : Reachable lib cfg tm) :
    (tm.oldKeys.len : Int) ≤ cfg.MaxRetiredKeys ∧
      ∀ (k : RSAPrivateKey) (id : String) (generated : Except Err RSAPrivateKey) (now : Int),
        tm.currentKey = some (.rsa k) → archiveKeyID k.PublicKey = some id →
        cfg.MaxRetiredKeys ≤ ((tm.oldKeys.set id (.rsa k.PublicKey)).len : Int) →
        (rotateKey tm generated now).state.oldKeys.len + 1 =
          (tm.oldKeys.set id (.rsa k.PublicKey)).len := by
  obtain ⟨hcfg, hmu, hnd, -, hlen⟩ := reachable_invariant lib cfg tm hreach
  refine ⟨hlen hmax, ?_⟩
  intro k id generated now hcur hid hfull
  obtain ⟨-, -, h3⟩ := rotateKey_state tm generated now hmu
  have ha : archiveCurrent tm = some (tm.oldKeys.set id (.rsa k.PublicKey)) := by
    simp [archiveCurrent, hcur, hid]
  rw [h3, ha]
  simp only
  rw [hcfg]
  exact evictOldest_len_full cfg _ (KeyMap.nodup_set _ _ _ hnd) (KeyMap.set_ne_nil _ _ _) hfull

/-- Witness of C2 on the RS256 sample (capacity 2) after two rotations: the
mapping holds one key, the third rotation archives a second one, reaching
capacity, and leaves one. -/
theorem retired_keys_bounded_witness :
    (0 : Int) ≤ sampleRSAConfig.MaxRetiredKeys ∧
      Reachable sampleLib sampleRSAConfig rotatedTwice ∧
      (rotatedTwice.oldKeys.len : Int) ≤ sampleRSAConfig.MaxRetiredKeys ∧
      (rotateKey rotatedTwice (.ok sampleKeyC) 2000000000).state.oldKeys.len + 1 =
        (rotatedTwice.oldKeys.set "a000000000000001" (.rsa sampleKeyB.PublicKey)).len :=
  have hreach : Reachable sampleLib sampleRSAConfig rotatedTwice :=
    Reachable.rotate _ _ _ (Reachable.rotate _ _ _ (Reachable.fresh sampleRSAManager rfl))
  ⟨by decide, hreach,
    (retired_keys_bounded sampleLib sampleRSAConfig rotatedTwice (by decide) hreach).1,
    (retired_keys_bounded sampleLib sampleRSAConfig rotatedTwice (by decide) hreach).2
      sampleKeyB "a000000000000001" (.ok sampleKeyC) 2000000000 rfl rfl (by decide)⟩

/-- A rotation never touches the signer or the configuration. -/
theorem rotateKey_signer (tm : TokenManager) (generated : Except Err RSAPrivateKey)
    (now : Int) :
    (rotateKey tm generated now).state.signer = tm.signer ∧
      (rotateKey tm generated now).state.cfg = tm.cfg := by
  unfold rotateKey
  cases hmu : tm.mu with
  | true => simp [Outcome.state]
  | false =>
      have harch : archiveCurrent { tm with mu := true } = archiveCurrent tm := rfl
      simp only [Bool.false_eq_true, if_false, harch]
      cases ha : archiveCurrent tm with
      | none => simp [deferredUnlock, Unlock, Outcome.state]
      | some archived =>
          cases generated with
          | error err => simp [deferredUnlock, Unlock, Outcome.state]
          | ok newPrivateKey => simp [deferredUnlock, Unlock, Outcome.state]

/-- A rotation that succeeds installs the generated key as current key. -/
theorem rotateKey_currentKey (tm : TokenManager) (newKey : RSAPrivateKey) (now : Int)
    (hok : (rotateKey tm (.ok newKey) now).succeeded = true) :
    (rotateKey tm (.ok newKey) now).state.currentKey = some (.rsa newKey) := by
  unfold rotateKey at hok ⊢
  cases hmu : tm.mu with
  | true => simp [hmu, Outcome.succeeded] at hok
  | false =>
      have harch : archiveCurrent { tm with mu := true } = archiveCurrent tm := rfl
      simp only [hmu, Bool.false_eq_true, if_false, harch] at hok ⊢
      cases ha : archiveCurrent tm with
      | none => simp [ha, deferredUnlock, Unlock, Outcome.succeeded] at hok
      | some archived => simp [deferredUnlock, Unlock, Outcome.state]

/-! ### C3: retention of an archived key -/

/-- The eviction block leaves a spared identifier as it was. -/
theorem evictOldest_get_spared (cfg : TokenConfig) (m : KeyMap) (id : String)
    (hks : ∀ x ∈ m.keys, x ≠ "") (hsp : Spared cfg m id) :
    (evictOldest cfg m).get id = m.get id := by
  unfold evictOldest
  split
  · rename_i hfull
    rcases hsp with hroom | ⟨x, hx, hlt⟩
    · exact absurd hfull (not_le.mpr hroom)
    · have hle := (oldestKeyLoop_le m.keys "" hks).1 x hx
      have hne : id ≠ oldestKeyLoop m.keys "" := by
        intro hc
        rw [← hc] at hle
        exact absurd hlt (not_lt.mpr hle)
      exact KeyMap.get_delete_ne m _ id hne
  · rfl

/-- The eviction block at work on the key archived in the same call.  In the
RS256 sample (capacity 2) after two rotations the current key is `sampleKeyB`; the next rotation, one second later and long
before two rotation intervals have passed, succeeds, and the public key of
`sampleKeyB` is not in the retired-key mapping afterwards: the eviction block
removed it in the same call, its identifier being the smallest. -/
theorem archived_key_evicted_at_once :
    rotatedTwice.currentKey = some (.rsa sampleKeyB) ∧
      archiveKeyID sampleKeyB.PublicKey = some "a000000000000001" ∧
      (rotateKey rotatedTwice (.ok sampleKeyC) 2000000000).succeeded = true ∧
      (rotateKey rotatedTwice (.ok sampleKeyC) 2000000000).state.oldKeys.get
        "a000000000000001" = none ∧
      (rotateKey rotatedTwice (.ok sampleKeyC) 2000000000).state.oldKeys =
        [("b000000000000001", .rsa sampleKeyA.PublicKey)] :=
  ⟨rfl, rfl, rfl, rfl, rfl⟩

/-- With room left after the archival the eviction block does nothing. -/
theorem evictOldest_of_room (cfg : TokenConfig) (m : KeyMap)
    (hroom : (m.len : Int) < cfg.MaxRetiredKeys) : evictOldest cfg m = m := by
  unfold evictOldest
  have : ¬ ((m.len : Int) ≥ cfg.MaxRetiredKeys) := not_le.mpr hroom
  simp only [this, if_false]

/-- A rotation does not change what `Verify` answers: `Verify` goes through
the signer, and the signer is not touched. -/
theorem rotateKey_verify (lib : Lib) (tm : TokenManager)
    (generated : Except Err RSAPrivateKey) (now now2 : Int) (tok : TokenString) :
    (rotateKey tm generated now).state.Verify lib now2 tok = tm.Verify lib now2 tok := by
  simp only [TokenManager.Verify, (rotateKey_signer tm generated now).1]

/-- C3, counterexample.  With `MaxRetiredKeys = 0` there is no room for a
retired key.  In the RS256 sample so configured, after a first rotation the
current key is `sampleKeyA`; the next rotation, one second later and long
before two rotation intervals have passed, succeeds, and the retired-key
mapping is empty afterwards: the public key of `sampleKeyA` is not in it. -/
theorem no_capacity_no_retention :
    NewTokenManager sampleLib zeroCapacityConfig = .ok zeroCapacityManager ∧
      zeroCapacityConfig.MaxRetiredKeys = 0 ∧
      zeroCapacityRotated.currentKey = some (.rsa sampleKeyA) ∧
      archiveKeyID sampleKeyA.PublicKey = some "b000000000000001" ∧
      (rotateKey zeroCapacityRotated (.ok sampleKeyB) 1000000000).succeeded = true ∧
      (rotateKey zeroCapacityRotated (.ok sampleKeyB) 1000000000).state.oldKeys = [] ∧
      (rotateKey zeroCapacityRotated (.ok sampleKeyB) 1000000000).state.oldKeys.get
        "b000000000000001" = none :=
  ⟨rfl, rfl, rfl, rfl, rfl, rfl, rfl⟩

/-- C3, amended.  For every configuration and every manager state with a free
mutex and a current RSA key whose modulus has at least 16 hexadecimal digits:
when the retired-key mapping, after the archival of that key, holds fewer
than `MaxRetiredKeys` entries, a `rotateKey` call whose key generation
succeeds, at any time, returns a nil error, and immediately afterwards
(1) the public key of that current key is in the retired-key mapping under
its identifier; (2) every entry that was in the mapping under another
identifier is still there, so an archived key stays through every later
rotation of this kind, whatever time has passed; (3) `Verify` answers every
token as it did before the rotation: it does not read the mapping. -/
theorem archived_key_retained (lib : Lib) (tm : TokenManager) (k newKey : RSAPrivateKey)
    (id : String) (now : Int) (hmu : tm.mu = false) (hcur : tm.currentKey = some (.rsa k))
    (hid : archiveKeyID k.PublicKey = some id)
    (hroom : ((tm.oldKeys.set id (.rsa k.PublicKey)).len : Int) < tm.cfg.MaxRetiredKeys) :
    (rotateKey tm (.ok newKey) now).succeeded = true ∧
      (rotateKey tm (.ok newKey) now).state.oldKeys.get id = some (.rsa k.PublicKey) ∧
      (∀ (id2 : String) (pk : CryptoPublicKey), id2 ≠ id → tm.oldKeys.get id2 = some pk →
        (rotateKey tm (.ok newKey) now).state.oldKeys.get id2 = some pk) ∧
      (∀ (now2 : Int) (tok : TokenString),
        (rotateKey tm (.ok newKey) now).state.Verify lib now2 tok = tm.Verify lib now2 tok) := by
  have ha : archiveCurrent tm = some (tm.oldKeys.set id (.rsa k.PublicKey)) := by
    simp [archiveCurrent, hcur, hid]
  have harch : archiveCurrent { tm with mu := true } = archiveCurrent tm := rfl
  obtain ⟨-, -, h3⟩ := rotateKey_state tm (.ok newKey) now hmu
  rw [ha] at h3
  simp only at h3
  rw [evictOldest_of_room _ _ hroom] at h3
  refine ⟨?_, ?_, ?_, ?_⟩
  · unfold rotateKey
    simp [hmu, harch, ha, deferredUnlock, Unlock, Outcome.succeeded]
  · rw [h3]
    exact KeyMap.get_set_same _ _ _
  · intro id2 pk hne hget
    rw [h3, KeyMap.get_set_ne _ _ _ _ hne]
    exact hget
  · intro now2 tok
    exact rotateKey_verify lib tm (.ok newKey) now now2 tok

/-- Witness of C3 on the RS256 sample with room for three retired keys, after
two rotations (current key `sampleKeyB`, mapping holding `sampleKeyA`): the
archival brings the mapping to two entries, the third rotation succeeds, the
public key of the current key `sampleKeyB` is in the mapping afterwards, the
entry of `sampleKeyA` is still there, and `Verify` answers the sample token as
before. -/
theorem archived_key_retained_witness :
    wideRotatedTwice.mu = false ∧ wideRotatedTwice.currentKey = some (.rsa sampleKeyB) ∧
      archiveKeyID sampleKeyB.PublicKey = some "a000000000000001" ∧
      ((wideRotatedTwice.oldKeys.set "a000000000000001" (.rsa sampleKeyB.PublicKey)).len : Int)
        < wideRotatedTwice.cfg.MaxRetiredKeys ∧
      (rotateKey wideRotatedTwice (.ok sampleKeyC) 2000000000).succeeded = true ∧
      (rotateKey wideRotatedTwice (.ok sampleKeyC) 2000000000).state.oldKeys.get
        "a000000000000001" = some (.rsa sampleKeyB.PublicKey) ∧
      wideRotatedTwice.oldKeys.get "b000000000000001" = some (.rsa sampleKeyA.PublicKey) ∧
      (rotateKey wideRotatedTwice (.ok sampleKeyC) 2000000000).state.oldKeys.get
        "b000000000000001" = some (.rsa sampleKeyA.PublicKey) ∧
      (rotateKey wideRotatedTwice (.ok sampleKeyC) 2000000000).state.Verify sampleLib
        1060000000000 sampleRSAToken =
        wideRotatedTwice.Verify sampleLib 1060000000000 sampleRSAToken :=
  have hroom : ((wideRotatedTwice.oldKeys.set "a000000000000001"
      (.rsa sampleKeyB.PublicKey)).len : Int) < wideRotatedTwice.cfg.MaxRetiredKeys := by
    decide
  have h := archived_key_retained sampleLib wideRotatedTwice sampleKeyB sampleKeyC
    "a000000000000001" 2000000000 rfl rfl rfl hroom
  ⟨rfl, rfl, rfl, hroom, h.1, h.2.1, rfl,
    h.2.2.1 "b000000000000001" (.rsa sampleKeyA.PublicKey) (by decide) rfl,
    h.2.2.2 1060000000000 sampleRSAToken⟩

/-! ### C4: the key that signs after a rotation -/

/-- C4, counterexample.  After the first, successful rotation of the RS256
sample manager the current key is the generated `sampleKeyA`, yet `Generate`
returns the token signed with the key parsed from the configuration (the same
token as before the rotation), not the token signed with the current key. -/
theorem generate_ignores_rotated_key :
    (rotateKey sampleRSAManager (.ok sampleKeyA) 0).succeeded = true ∧
      rotatedOnce.currentKey = some (.rsa sampleKeyA) ∧
      rotatedOnce.Generate sampleLib sampleClaims 1000000000500 1000000000600 1000000000700
        = .ok sampleRSAToken ∧
      sampleRSAManager.Generate sampleLib sampleClaims 1000000000500 1000000000600
        1000000000700 = .ok sampleRSAToken ∧
      rotatedOnce.Generate sampleLib sampleClaims 1000000000500 1000000000600 1000000000700
        ≠ tokenUnderCurrentKey :=
  ⟨rfl, rfl, rfl, rfl, by decide⟩

/-- C4, amended.  For every RSA-configured manager, after a successful
`rotateKey` the freshly generated key is installed as `currentKey`, while
`Generate` signs every new token with the private key of the signer built at
construction, which the rotation does not change. -/
theorem rotation_keeps_signing_key (lib : Lib) (tm : TokenManager) (s : RSASigner)
    (newKey : RSAPrivateKey) (now : Int) (hs : tm.signer = some (.rsa s))
    (hok : (rotateKey tm (.ok newKey) now).succeeded = true) :
    (rotateKey tm (.ok newKey) now).state.currentKey = some (.rsa newKey) ∧
      (rotateKey tm (.ok newKey) now).state.signer = some (.rsa s) ∧
      ∀ (claims : EnterpriseClaims) (now1 now2 now3 : Int),
        (rotateKey tm (.ok newKey) now).state.Generate lib claims now1 now2 now3 =
          s.Sign lib (stampClaims tm.cfg claims now1 now2 now3) := by
  obtain ⟨h1, h2⟩ := rotateKey_signer tm (.ok newKey) now
  refine ⟨rotateKey_currentKey tm newKey now hok, h1.trans hs, ?_⟩
  intro claims now1 now2 now3
  simp only [TokenManager.Generate, h1, hs, h2, Signer.Sign]

/-- Witness of C4 on the first rotation of the RS256 sample manager. -/
theorem rotation_keeps_signing_key_witness :
    sampleRSAManager.signer = some (.rsa sampleRSASigner) ∧
      (rotateKey sampleRSAManager (.ok sampleKeyA) 0).succeeded = true ∧
      (rotateKey sampleRSAManager (.ok sampleKeyA) 0).state.currentKey =
        some (.rsa sampleKeyA) ∧
      (rotateKey sampleRSAManager (.ok sampleKeyA) 0).state.signer =
        some (.rsa sampleRSASigner) :=
  have h := rotation_keeps_signing_key sampleLib sampleRSAManager sampleRSASigner sampleKeyA 0
    rfl rfl
  ⟨rfl, rfl, h.1, h.2.1⟩

/-! ### C5: a rotation whose key generation fails -/

/-- C5, the code at the failing input.  Whatever the state, a rotation whose
key generation fails never comes back with a return value; and on the RS256
sample after one rotation (mapping empty, current key `sampleKeyA`) it ends in
the fatal error of the second unlock, after the archival has already added the
current key to the retired-key mapping. -/
theorem rotateKey_generation_failure :
    (∀ (tm : TokenManager) (err : Err) (now : Int),
        (rotateKey tm (.error err) now).isReturn = false) ∧
      rotatedOnce.oldKeys = [] ∧
      rotateKey rotatedOnce (.error (.new "entropy source failed")) 1000000000 =
        .fatal "sync: Unlock of unlocked RWMutex"
          { rotatedOnce with
            oldKeys := [("b000000000000001", .rsa sampleKeyA.PublicKey)] } := by
  refine ⟨?_, rfl, rfl⟩
  intro tm err now
  unfold rotateKey
  cases hmu : tm.mu with
  | true => simp [Outcome.isReturn]
  | false =>
      have harch : archiveCurrent { tm with mu := true } = archiveCurrent tm := rfl
      simp only [Bool.false_eq_true, if_false, harch]
      cases ha : archiveCurrent tm with
      | none => simp [deferredUnlock, Unlock, Outcome.isReturn]
      | some archived => simp [deferredUnlock, Unlock, Outcome.isReturn]

/-! ### C6: the error kind of an expired token -/

/-- C6, the code at the failing input.  Sixteen minutes after issue the
correctly signed HS256 sample token has expired.  `HMACSigner.Verify` hands
back the error of the token library as it is, which is not the package error
`ErrTokenExpired`; `RSASigner.Verify` on the RS256 sample token of the same
age returns `ErrTokenExpired`. -/
theorem hmac_expired_error_not_mapped :
    sampleHMACManager.Generate sampleLib sampleClaims 1000000000500 1000000000600
        1000000000700 = .ok sampleHMACToken ∧
      sampleHMACManager.Verify sampleLib 1960000000000 sampleHMACToken =
        some (.error (.library [.ErrTokenInvalidClaims, .ErrTokenExpired])) ∧
      Err.Is (.library [.ErrTokenInvalidClaims, .ErrTokenExpired]) .ErrTokenExpired = false ∧
      sampleRSAManager.Verify sampleLib 1960000000000 sampleRSAToken =
        some (.error .ErrTokenExpired) :=
  ⟨rfl, rfl, rfl, rfl⟩

/-! ### C7: issuer and audience at verification -/

/-- C7, counterexample.  Tokens whose issuer is not the configured issuer and
whose audience holds none of the configured audience values, correctly signed
and inside their validity window, are accepted by both signer variants. -/
theorem verify_accepts_foreign_issuer :
    foreignClaims.Registered.Issuer = goStr "intruder" ∧
      foreignClaims.Registered.Audience = [goStr "elsewhere"] ∧
      sampleHMACConfig.Issuer = goStr "svc-auth" ∧
      sampleHMACConfig.Audience = [goStr "svc-api"] ∧
      sampleRSAConfig.Issuer = goStr "svc-auth" ∧
      sampleRSAConfig.Audience = [goStr "svc-api"] ∧
      (NewHMACSigner sampleHMACConfig).Sign sampleLib foreignClaims = .ok foreignHMACToken ∧
      sampleHMACManager.Verify sampleLib 1060000000000 foreignHMACToken =
        some (.ok foreignClaims) ∧
      sampleRSASigner.Sign sampleLib foreignClaims = .ok foreignRSAToken ∧
      sampleRSAManager.Verify sampleLib 1060000000000 foreignRSAToken =
        some (.ok foreignClaims) :=
  ⟨rfl, rfl, rfl, rfl, rfl, rfl, rfl, rfl, rfl, rfl⟩

theorem GetSigningMethod_alg (alg : String) (m : jwt.SigningMethod)
    (h : jwt.GetSigningMethod alg = some m) : m.Alg = alg := by
  unfold jwt.GetSigningMethod at h
  by_cases h0 : alg = "HS256"
  · rw [if_pos h0] at h
    injection h with h
    subst h
    exact h0.symm
  rw [if_neg h0] at h
  by_cases h1 : alg = "HS384"
  · rw [if_pos h1] at h
    injection h with h
    subst h
    exact h1.symm
  rw [if_neg h1] at h
  by_cases h2 : alg = "HS512"
  · rw [if_pos h2] at h
    injection h with h
    subst h
    exact h2.symm
  rw [if_neg h2] at h
  by_cases h3 : alg = "RS256"
  · rw [if_pos h3] at h
    injection h with h
    subst h
    exact h3.symm
  rw [if_neg h3] at h
  by_cases h4 : alg = "RS384"
  · rw [if_pos h4] at h
    injection h with h
    subst h
    exact h4.symm
  rw [if_neg h4] at h
  by_cases h5 : alg = "RS512"
  · rw [if_pos h5] at h
    injection h with h
    subst h
    exact h5.symm
  rw [if_neg h5] at h
  by_cases h6 : alg = "PS256"
  · rw [if_pos h6] at h
    injection h with h
    subst h
    exact h6.symm
  rw [if_neg h6] at h
  by_cases h7 : alg = "PS384"
  · rw [if_pos h7] at h
    injection h with h
    subst h
    exact h7.symm
  rw [if_neg h7] at h
  by_cases h8 : alg = "PS512"
  · rw [if_pos h8] at h
    injection h with h
    subst h
    exact h8.symm
  rw [if_neg h8] at h
  by_cases h9 : alg = "ES256"
  · rw [if_pos h9] at h
    injection h with h
    subst h
    exact h9.symm
  rw [if_neg h9] at h
  by_cases h10 : alg = "ES384"
  · rw [if_pos h10] at h
    injection h with h
    subst h
    exact h10.symm
  rw [if_neg h10] at h
  by_cases h11 : alg = "ES512"
  · rw [if_pos h11] at h
    injection h with h
    subst h
    exact h11.symm
  rw [if_neg h11] at h
  by_cases h12 : alg = "EdDSA"
  · rw [if_pos h12] at h
    injection h with h
    subst h
    exact h12.symm
  rw [if_neg h12] at h
  by_cases h13 : alg = "none"
  · rw [if_pos h13] at h
    injection h with h
    subst h
    exact h13.symm
  rw [if_neg h13] at h
  cases h

/-- When the claims validator accepts, the expiry lies ahead and the
not-before has been reached. -/
theorem Validate_none_window (c : EnterpriseClaims) (now : Int)
    (h : jwt.Validate c now = none) :
    (∀ e, c.Registered.ExpiresAt = some e → now < e) ∧
      (∀ b, c.Registered.NotBefore = some b → b ≤ now) := by
  simp only [jwt.Validate, jwt.verifyExpiresAt, jwt.verifyNotBefore] at h
  constructor
  · intro e he
    by_contra hc
    simp [he, hc] at h
  · intro b hb
    by_contra hc
    have hlt : now < b := not_le.mp hc
    simp [hb, hlt] at h

/-- A token that the HMAC signer accepts carries the HMAC of its first two
segments under the secret of the signer, and the validator accepted its claims. -/
theorem hmacSigner_verify_sound (lib : Lib) (h : HMACSigner) (now : Int) (alg : String)
    (payload : EnterpriseClaims) (sig : Signature) (out : EnterpriseClaims)
    (hv : h.Verify lib now (.compact alg payload sig) = .ok out) :
    out = jwt.wireClaims payload ∧ jwt.Validate (jwt.wireClaims payload) now = none ∧
      ∃ hash, alg = (jwt.SigningMethod.HMAC hash).Alg ∧
        sig = lib.hmac hash h.secret { alg := alg, payload := payload } := by
  simp only [HMACSigner.Verify, jwt.ParseWithClaims] at hv
  cases hm : jwt.GetSigningMethod alg with
  | none => simp [hm] at hv
  | some m =>
      have halg := GetSigningMethod_alg alg m hm
      simp only [hm] at hv
      cases m with
      | HMAC hash =>
          simp only [jwt.SigningMethod.Verify] at hv
          by_cases hsig : sig = lib.hmac hash h.secret { alg := alg, payload := payload }
          · simp only [hsig, if_true] at hv
            cases hval : jwt.Validate (jwt.wireClaims payload) now with
            | some e => simp [hval] at hv
            | none =>
                simp only [hval, Except.ok.injEq] at hv
                exact ⟨hv.symm, rfl, hash, halg.symm, hsig⟩
          · simp [hsig] at hv
      | RSA hash => simp [jwt.SigningMethod.Verify] at hv
      | RSAPSS hash => simp [jwt.SigningMethod.Verify] at hv
      | ECDSA hash => simp [jwt.SigningMethod.Verify] at hv
      | Ed25519 => simp [jwt.SigningMethod.Verify] at hv
      | None => simp [jwt.SigningMethod.Verify] at hv

/-- A token that the RSA signer accepts carries a PKCS#1 v1.5 signature of
its first two segments that verifies under the public key of the signer, and
the validator accepted its claims. -/
theorem rsaSigner_verify_sound (lib : Lib) (s : RSASigner) (now : Int) (alg : String)
    (payload : EnterpriseClaims) (sig : Signature) (out : EnterpriseClaims)
    (hv : s.Verify lib now (.compact alg payload sig) = .ok out) :
    out = jwt.wireClaims payload ∧ jwt.Validate (jwt.wireClaims payload) now = none ∧
      ∃ hash, alg = (jwt.SigningMethod.RSA hash).Alg ∧
        lib.VerifyPKCS1v15 hash s.publicKey { alg := alg, payload := payload } sig = true := by
  simp only [RSASigner.Verify] at hv
  cases hp : jwt.ParseWithClaims lib now (.compact alg payload sig) s.keyFunc with
  | error e =>
      simp only [hp] at hv
      split_ifs at hv
  | ok token =>
      simp only [hp] at hv
      simp only [jwt.ParseWithClaims] at hp
      cases hm : jwt.GetSigningMethod alg with
      | none => simp [hm] at hp
      | some m =>
          have halg := GetSigningMethod_alg alg m hm
          simp only [hm] at hp
          cases m with
          | RSA hash =>
              simp only [RSASigner.keyFunc, jwt.SigningMethod.Verify] at hp
              by_cases hsig :
                  lib.VerifyPKCS1v15 hash s.publicKey { alg := alg, payload := payload } sig
                    = true
              · simp only [hsig, if_true] at hp
                cases hval : jwt.Validate (jwt.wireClaims payload) now with
                | some e => simp [hval] at hp
                | none =>
                    simp only [hval, Except.ok.injEq] at hp
                    subst hp
                    simp only [if_true, Except.ok.injEq] at hv
                    exact ⟨hv.symm, rfl, hash, halg.symm, hsig⟩
              · simp [hsig] at hp
          | HMAC hash => simp [RSASigner.keyFunc] at hp
          | RSAPSS hash => simp [RSASigner.keyFunc] at hp
          | ECDSA hash => simp [RSASigner.keyFunc] at hp
          | Ed25519 => simp [RSASigner.keyFunc] at hp
          | None => simp [RSASigner.keyFunc] at hp

/-- C7, amended.  For every configuration and every signer variant (an RSA
signer with a matching, consistent key pair), `Verify` checks the signature,
the expiry and the not-before, and neither the issuer nor the audience.
(1) A correctly signed token that has not expired and whose not-before has
been reached is accepted, with its claims returned, whatever issuer and
audience it carries.  (2) Every token that `Verify` accepts carries a
signature that checks out under the key of the signer, has its expiry ahead
and its not-before reached; so a token with another signature, an expired
token and a token not yet valid are rejected with an error. -/
theorem verify_ignores_issuer_audience (lib : Lib) (tm : TokenManager) (signer : Signer)
    (hsigner : tm.signer = some signer)
    (hwf : ∀ s, signer = .rsa s →
      s.publicKey = s.privateKey.PublicKey ∧ RSAConsistent lib s.privateKey) :
    (∀ (claims : EnterpriseClaims) (iss : GoString) (aud : List GoString) (now : Int)
        (tok : TokenString),
        signer.Sign lib
            { claims with
              Registered := { claims.Registered with Issuer := iss, Audience := aud } }
          = .ok tok →
        (∀ e, claims.Registered.ExpiresAt = some e → now < jwt.NewNumericDate e) →
        (∀ b, claims.Registered.NotBefore = some b → jwt.NewNumericDate b ≤ now) →
        tm.Verify lib now tok =
          some (.ok (jwt.wireClaims
            { claims with
              Registered := { claims.Registered with Issuer := iss, Audience := aud } }))) ∧
      (∀ (alg : String) (payload : EnterpriseClaims) (sig : Signature) (now : Int)
        (out : EnterpriseClaims),
        tm.Verify lib now (.compact alg payload sig) = some (.ok out) →
        out = jwt.wireClaims payload ∧ SignatureChecked lib signer alg payload sig ∧
          (∀ e, out.Registered.ExpiresAt = some e → now < e) ∧
          (∀ b, out.Registered.NotBefore = some b → b ≤ now)) := by
  constructor
  · intro claims iss aud now tok hsign hexp hnbf
    have hval : jwt.Validate (jwt.wireClaims
        { claims with Registered := { claims.Registered with Issuer := iss, Audience := aud } })
        now = none := by
      apply Validate_none_of_window
      · intro e he
        simp only [jwt.wireClaims, Option.map_eq_some'] at he
        obtain ⟨e0, he0, rfl⟩ := he
        exact hexp e0 he0
      · intro b hb
        simp only [jwt.wireClaims, Option.map_eq_some'] at hb
        obtain ⟨b0, hb0, rfl⟩ := hb
        exact hnbf b0 hb0
    simp only [TokenManager.Verify, hsigner]
    cases signer with
    | hmac h =>
        simp only [Signer.Sign] at hsign
        simp only [Signer.Verify]
        rw [hmacSigner_verify_sign lib h _ now tok hsign hval]
    | rsa s =>
        obtain ⟨hpair, hkey⟩ := hwf s rfl
        simp only [Signer.Sign] at hsign
        simp only [Signer.Verify]
        rw [rsaSigner_verify_sign lib s _ now tok hpair hkey hsign hval]
  · intro alg payload sig now out hv
    simp only [TokenManager.Verify, hsigner, Option.some.injEq] at hv
    cases signer with
    | hmac h =>
        simp only [Signer.Verify] at hv
        obtain ⟨h1, h2, h3⟩ := hmacSigner_verify_sound lib h now alg payload sig out hv
        obtain ⟨w1, w2⟩ := Validate_none_window _ now h2
        rw [h1]
        exact ⟨rfl, h3, w1, w2⟩
    | rsa s =>
        simp only [Signer.Verify] at hv
        obtain ⟨h1, h2, h3⟩ := rsaSigner_verify_sound lib s now alg payload sig out hv
        obtain ⟨w1, w2⟩ := Validate_none_window _ now h2
        rw [h1]
        exact ⟨rfl, h3, w1, w2⟩

/-- Witness of C7 on the RS256 sample.  The sample claims, re-issued under the
issuer `intruder` for the audience `elsewhere`, verify one minute after issue,
and the signature of the accepted token checks out.  The same claims under a
signature made with another key, before their not-before and at their expiry
are rejected. -/
theorem verify_ignores_issuer_audience_witness :
    sampleRSAManager.signer = some (.rsa sampleRSASigner) ∧
      (Signer.rsa sampleRSASigner).Sign sampleLib
        { sampleStamped with
          Registered :=
            { sampleStamped.Registered with
              Issuer := goStr "intruder", Audience := [goStr "elsewhere"] } }
        = .ok foreignRSAToken ∧
      sampleRSAManager.Verify sampleLib 1060000000000 foreignRSAToken =
        some (.ok (jwt.wireClaims
          { sampleStamped with
            Registered :=
              { sampleStamped.Registered with
                Issuer := goStr "intruder", Audience := [goStr "elsewhere"] } })) ∧
      SignatureChecked sampleLib (.rsa sampleRSASigner) "RS256" foreignClaims
        [3233, 2753, 42] ∧
      sampleRSAManager.Verify sampleLib 1060000000000 forgedRSAToken =
        some (.error (.wrap .ErrInvalidToken
          "token signature is invalid: crypto/rsa: verification error")) ∧
      sampleRSAManager.Verify sampleLib 999000000000 foreignRSAToken =
        some (.error (.wrap .ErrInvalidToken "token尚未生效")) ∧
      sampleRSAManager.Verify sampleLib 1900000000000 foreignRSAToken =
        some (.error .ErrTokenExpired) ∧
      sampleHMACManager.Verify sampleLib 1060000000000 forgedHMACToken =
        some (.error (.library [.ErrTokenSignatureInvalid, .ErrSignatureInvalid])) ∧
      sampleHMACManager.Verify sampleLib 999000000000 foreignHMACToken =
        some (.error (.library [.ErrTokenInvalidClaims, .ErrTokenNotValidYet])) :=
  have hwf : ∀ s, Signer.rsa sampleRSASigner = .rsa s →
      s.publicKey = s.privateKey.PublicKey ∧ RSAConsistent sampleLib s.privateKey :=
    fun s hs => by
      cases hs
      exact ⟨rfl, sampleLib_consistent _⟩
  have h := verify_ignores_issuer_audience sampleLib sampleRSAManager (.rsa sampleRSASigner)
    rfl hwf
  ⟨rfl, rfl,
    h.1 sampleStamped (goStr "intruder") [goStr "elsewhere"] 1060000000000 foreignRSAToken rfl
      (fun e he => by
        cases he
        decide)
      (fun b hb => by
        cases hb
        decide),
    (h.2 "RS256" foreignClaims [3233, 2753, 42] 1060000000000 foreignClaims rfl).2.1,
    rfl, rfl, rfl, rfl, rfl⟩

/-! ### C8: the pairing check of `NewRSASigner` -/

/-- C8.  For every configuration whose private-key and public-key PEM texts
both parse as RSA keys: when the modulus or the exponent of the supplied
public key differs from the public part of the private key, `NewRSASigner`
returns an error and no signer; when both are equal it returns the signer that
holds exactly the parsed private key and the supplied public key. -/
theorem NewRSASigner_pairing (lib : Lib) (cfg : TokenConfig) (priv : RSAPrivateKey)
    (pub : RSAPublicKey) (hparse : ParsesAsRSAKeys lib cfg priv pub) :
    ((priv.PublicKey.N ≠ pub.N ∨ priv.PublicKey.E ≠ pub.E) →
        NewRSASigner lib (some cfg) = .error (.wrap (.new "公私钥不匹配") "RSA密钥解析失败")) ∧
      ((priv.PublicKey.N = pub.N ∧ priv.PublicKey.E = pub.E) →
        NewRSASigner lib (some cfg) =
          .ok { cfg := some cfg, privateKey := priv, publicKey := pub,
                keyID := generateKeyID lib pub }) := by
  obtain ⟨privateKeyBlock, publicKeyBlock, h1, h2, h3, h4⟩ := hparse
  constructor
  · intro hne
    simp [NewRSASigner, parseRSAKeys, h1, h2, h3, h4, hne]
  · intro heq
    simp [NewRSASigner, parseRSAKeys, h1, h2, h3, h4, heq.1, heq.2]

/-- Witness of C8 on the RS256 sample configuration (public exponent 17 on
both sides) and on the same configuration with public exponent 5 supplied. -/
theorem NewRSASigner_pairing_witness :
    ParsesAsRSAKeys sampleLib sampleRSAConfig sampleRSASigner.privateKey { N := 3233, E := 17 } ∧
      NewRSASigner sampleLib (some sampleRSAConfig) = .ok sampleRSASigner ∧
      ParsesAsRSAKeys sampleLib mismatchedRSAConfig sampleRSASigner.privateKey
        { N := 3233, E := 5 } ∧
      NewRSASigner sampleLib (some mismatchedRSAConfig) =
        .error (.wrap (.new "公私钥不匹配") "RSA密钥解析失败") :=
  have h1 : ParsesAsRSAKeys sampleLib sampleRSAConfig sampleRSASigner.privateKey
      { N := 3233, E := 17 } := ⟨[3233, 17, 2753], [3233, 17], rfl, rfl, rfl, rfl⟩
  have h2 : ParsesAsRSAKeys sampleLib mismatchedRSAConfig sampleRSASigner.privateKey
      { N := 3233, E := 5 } := ⟨[3233, 17, 2753], [3233, 5], rfl, rfl, rfl, rfl⟩
  ⟨h1, (NewRSASigner_pairing sampleLib sampleRSAConfig _ _ h1).2 ⟨rfl, rfl⟩,
    h2, (NewRSASigner_pairing sampleLib mismatchedRSAConfig _ _ h2).1 (Or.inr (by decide))⟩

/-! ### C9: a symmetric secret shorter than 32 bytes -/

/-- C9, counterexample.  `NewHMACSigner` called directly on a configuration
whose secret has five bytes returns a signer, and that signer is usable: it
signs the stamped sample claims and verifies the token it issued. -/
theorem short_secret_signer_usable :
    strLen shortSecretConfig.SecretKey = 5 ∧
      NewHMACSigner shortSecretConfig = { cfg := shortSecretConfig, secret := "short" } ∧
      (NewHMACSigner shortSecretConfig).Sign sampleLib sampleStamped = .ok shortSecretToken ∧
      (NewHMACSigner shortSecretConfig).Verify sampleLib 1060000000000 shortSecretToken =
        .ok sampleStamped :=
  ⟨rfl, rfl, rfl, rfl⟩

/-- C9, amended.  For every configuration whose algorithm is HS256 (in any
letter case) and whose secret is shorter than 32 bytes, construction of the
manager fails: `initSigner` returns an error on every manager holding that
configuration and `NewTokenManager` returns an error and no manager.
`NewHMACSigner` itself checks nothing: for every configuration it returns the
signer holding the configured secret. -/
theorem short_secret_rejected_by_manager (lib : Lib) (cfg : TokenConfig)
    (halg : ToUpper cfg.Algorithm = HMACKeyType) (hshort : strLen cfg.SecretKey < 32) :
    (∀ tm : TokenManager, tm.cfg = cfg →
        initSigner lib tm = .error (.new "HMAC密钥长度至少32字节")) ∧
      NewTokenManager lib cfg =
        .error (.wrap (.new "HMAC密钥长度至少32字节") "签名器初始化失败") ∧
      (∀ anyCfg : TokenConfig,
        NewHMACSigner anyCfg = { cfg := anyCfg, secret := anyCfg.SecretKey }) := by
  refine ⟨?_, ?_, fun _ => rfl⟩
  · intro tm htm
    simp [initSigner, htm, halg, hshort]
  · simp [NewTokenManager, initSigner, halg, hshort]

/-- Witness of C9 on the HS256 sample configuration with the secret `short`. -/
theorem short_secret_rejected_by_manager_witness :
    ToUpper shortSecretConfig.Algorithm = HMACKeyType ∧
      strLen shortSecretConfig.SecretKey < 32 ∧
      NewTokenManager sampleLib shortSecretConfig =
        .error (.wrap (.new "HMAC密钥长度至少32字节") "签名器初始化失败") :=
  ⟨rfl, by decide,
    (short_secret_rejected_by_manager sampleLib shortSecretConfig rfl (by decide)).2.1⟩

/-! ### C10: the background rotation loop -/

/-- C10, the code at the failing input.  Whatever the number of ticks that
arrive before the cancellation, two or more, the daemon calls `rotateKey` once,
on the first tick, and its return value is the outcome of that call; on the
RS256 sample, with two ticks and rotations that succeed, it performs one
rotation and returns a nil error without having seen the cancellation. -/
theorem daemon_returns_after_first_tick :
    (∀ (tm : TokenManager) (generated : Nat → Except Err RSAPrivateKey) (now : Int) (n : Nat),
        (keyRotationDaemon tm generated now (List.replicate (n + 2) .tick ++ [.done])).2.length
            = 1 ∧
          (keyRotationDaemon tm generated now (List.replicate (n + 2) .tick ++ [.done])).1
            = rotateKey tm (generated 0) now) ∧
      (keyRotationDaemon rotatedOnce (fun _ => .ok sampleKeyB) 1000000000
          [.tick, .tick, .done]).2.length = 1 ∧
      (keyRotationDaemon rotatedOnce (fun _ => .ok sampleKeyB) 1000000000
          [.tick, .tick, .done]).1.succeeded = true := by
  refine ⟨?_, rfl, rfl⟩
  intro tm generated now n
  simp [List.replicate_succ, keyRotationDaemon]

/-! ### C11: the results of `NewTokenService` -/

/-- C11, the code at the failing input.  The first call of a process always
returns a service with a nil error or a nil service with an error.  But once
`once` has run and left `instance` nil, every later call, whatever its
configuration, returns a nil service together with a nil error; and that state
arises: a first call with the short HS256 secret fails at manager
construction, and the second call, with the valid HS256 sample configuration,
returns nil and nil. -/
theorem NewTokenService_nil_nil_after_failure :
    (∀ (lib : Lib) (cfg : TokenConfig),
        wellFormedResult (NewTokenService lib initialGlobals cfg).1 = true) ∧
      (∀ (lib : Lib) (cfg : TokenConfig),
        (NewTokenService lib { serviceInstance := none, onceDone := true } cfg).1
          = (none, none)) ∧
      (NewTokenService sampleLib initialGlobals shortSecretConfig).2 =
        { serviceInstance := none, onceDone := true } ∧
      serviceCalls sampleLib initialGlobals [shortSecretConfig, sampleHMACConfig] =
        [(none, some (.wrap (.new "HMAC密钥长度至少32字节") "签名器初始化失败")),
          (none, none)] ∧
      wellFormedResult (none, none) = false := by
  refine ⟨?_, fun _ _ => rfl, rfl, rfl, rfl⟩
  intro lib cfg
  simp only [NewTokenService, onceDoInit, initialGlobals, Bool.false_eq_true, if_false]
  cases NewTokenManager lib cfg <;> simp [wellFormedResult]

end Pkgs
